import Mathlib

/-!
# Verification of the vphone-cli firmware patch engine

Shallow embedding of the dynamic binary-patching scripts of the
`vphone-cli` repository (`scripts/patchers/cfw.py`, `kernel_jb.py`,
`txm_jb.py`, `iboot_jb.py`) together with proofs and refutations of the
claims extracted from the repository specification.

Conventions used throughout:

* A Python `bytearray` / `bytes` value is a `List Nat` whose entries are
  byte values; out-of-range reads use `List.getD _ _ 0` (the claims at
  issue never hinge on Python raising on an out-of-range `struct` read,
  which is noted per definition where relevant).
* The capstone disassembler is the "Disassembly Facade" of the spec: it
  is modelled as a function `decode : Nat -> Option Insn` from the
  little-endian 32-bit word at an offset to the decoded instruction
  (capstone's output is a function of those four bytes).  The keystone
  assembler is likewise a parameter `ks : String -> Nat -> Option (List Nat)`.
* Python exceptions that the scripts can actually raise on the modelled
  paths (`RuntimeError` from `asm`/`_asm_at`, `ValueError` from
  `parse_macho_sections` on a bad magic) are modelled with `Except`.
* Machine arithmetic is `Nat`/`Int` with explicit masks/mods; Python `//`
  is `Int.fdiv` (floor division) and `& mask` on a possibly-negative int
  is `Int.emod _ (mask+1)`.
-/

set_option autoImplicit false

/-! ## Byte-buffer primitives (Python bytearray semantics) -/

/-- Read one byte; out of range reads 0. -/
def rd8 (data : List Nat) (off : Nat) : Nat := data.getD off 0

/-- `struct.unpack_from("<I", data, off)`: little-endian 32-bit read. -/
def rd32 (data : List Nat) (off : Nat) : Nat :=
  rd8 data off + 256 * rd8 data (off + 1) + 65536 * rd8 data (off + 2) +
    16777216 * rd8 data (off + 3)

/-- `struct.unpack_from("<H", data, off)`: little-endian 16-bit read. -/
def rd16 (data : List Nat) (off : Nat) : Nat :=
  rd8 data off + 256 * rd8 data (off + 1)

/-- `struct.unpack_from("<Q", data, off)`: little-endian 64-bit read. -/
def rd64 (data : List Nat) (off : Nat) : Nat :=
  rd32 data off + 4294967296 * rd32 data (off + 4)

/-- `struct.unpack_from(">I", data, off)`: big-endian 32-bit read
(used by `_get_fat_slices` for the FAT magic). -/
def rdBE32 (data : List Nat) (off : Nat) : Nat :=
  16777216 * rd8 data off + 65536 * rd8 data (off + 1) +
    256 * rd8 data (off + 2) + rd8 data (off + 3)

/-- `struct.unpack_from(">Q", data, off)`. -/
def rdBE64 (data : List Nat) (off : Nat) : Nat :=
  4294967296 * rdBE32 data off + rdBE32 data (off + 4)

/-- Interpret a 32-bit word as a signed value (`struct.unpack_from("<i", ...)`). -/
def toSigned32 (v : Nat) : Int :=
  if v < 2147483648 then (v : Int) else (v : Int) - 4294967296

def rdS32 (data : List Nat) (off : Nat) : Int := toSigned32 (rd32 data off)

/-- `struct.pack("<I", v)`: four little-endian bytes of `v % 2^32`. -/
def packLE32 (v : Nat) : List Nat :=
  [v % 256, v / 256 % 256, v / 65536 % 256, v / 16777216 % 256]

/-- `struct.pack("<Q", v)`. -/
def packLE64 (v : Nat) : List Nat :=
  packLE32 (v % 4294967296) ++ packLE32 (v / 4294967296)

/-- Python slice assignment `data[off : off + len(pb)] = pb` for a
non-negative `off`.  `List.take`/`List.drop` clamp exactly the way Python
slices do, so this is also correct when the target slice is shorter than
`pb` (in which case the buffer grows). -/
def pySliceAssign (data : List Nat) (off : Nat) (pb : List Nat) : List Nat :=
  data.take off ++ pb ++ data.drop (off + pb.length)

/-- `struct.pack_into("<I", data, off, v)`. -/
def wr32 (data : List Nat) (off : Nat) (v : Nat) : List Nat :=
  pySliceAssign data off (packLE32 v)

/-- `struct.pack_into("<Q", data, off, v)`. -/
def wr64 (data : List Nat) (off : Nat) (v : Nat) : List Nat :=
  pySliceAssign data off (packLE64 v)

/-- The patch-application write loop shared verbatim by
`KernelJBPatcher.apply`, `TXMJBPatcher.apply` and `IBootJBPatcher.apply`:

    for off, patch_bytes, _ in patches:
        self.data[off:off + len(patch_bytes)] = patch_bytes

(the human-readable description component of each patch is irrelevant to
the buffer and is dropped from the model). -/
def applyPatchesLoop (patches : List (Nat × List Nat)) (data : List Nat) : List Nat :=
  patches.foldl (fun d p => pySliceAssign d p.1 p.2) data

/-- Modelled from the spec: the `emit` helper of the patcher base classes
(`kernel.py`, `txm.py`, `iboot.py`, which are not part of the shown
sources) registers a patch on `self.patches`; per the spec the working
buffer "reflects prior writes, so a second scan will not re-offer
overlapping caves", i.e. emitted patch bytes are written through to the
mutable buffer.  Writing a whole rule's emitted patches through is
exactly `applyPatchesLoop`. -/
def emitWriteThrough (patches : List (Nat × List Nat)) (data : List Nat) : List Nat :=
  applyPatchesLoop patches data

/-- `data.index(0, start)` modelled totally: the offset of the first zero
byte at or after `start`, or `data.length` when there is none (Python
raises `ValueError` there; no modelled claim depends on that path). -/
def findNull (data : List Nat) (start : Nat) : Nat :=
  match (data.drop start).findIdx? (· == 0) with
  | some i => start + i
  | none => data.length

/-- Does `needle` occur in `data` starting exactly at offset `p`?
(Python slice comparison semantics: the slice must be full length.) -/
def matchesAt (data needle : List Nat) (p : Nat) : Bool :=
  decide ((data.drop p).take needle.length = needle)

/-- `data.find(needle)` (first occurrence, `-1` becomes `none`). -/
def listFind (data needle : List Nat) : Option Nat :=
  (List.range (data.length + 1)).find? (matchesAt data needle)

/-- All occurrence offsets of `needle` in `data`.  This is what the
repeated `raw.find(needle, off); off = s_off + 1` loops of
`_find_string_refs` enumerate. -/
def allOccurrences (data needle : List Nat) : List Nat :=
  (List.range (data.length + 1)).filter (matchesAt data needle)

/-- ASCII bytes of a literal string. -/
def strBytes (s : String) : List Nat := s.toList.map Char.toNat

/-- `range(s, s + 4*n, 4)` as an explicit list: `[s, s+4, ..., s+4(n-1)]`. -/
def range4 (s : Nat) : Nat → List Nat
  | 0 => []
  | n + 1 => s :: range4 (s + 4) n

/-- Number of elements of `range(s, e, 4)`. -/
def range4Count (s e : Nat) : Nat := (e - s + 3) / 4

/-- `range(s, e, 4)` (empty when `e <= s`). -/
def pyRange4 (s e : Nat) : List Nat := range4 s (range4Count s e)

/-- Descending `range(s, s - 4*n, -4)` as an explicit list. -/
def range4Down (s : Nat) : Nat → List Nat
  | 0 => []
  | n + 1 => s :: range4Down (s - 4) n

/-! ## Instruction facade

The capstone instruction object: `mnemonic`, `op_str` and the structured
operand list (register / immediate / memory-with-base, matching
`ARM64_OP_REG` / `ARM64_OP_IMM` / `ARM64_OP_MEM`). -/

inductive OpKind where
  | reg
  | imm
  | mem
  deriving DecidableEq, Repr

structure Operand where
  kind : OpKind
  reg : Nat := 0
  imm : Int := 0
  memBase : Nat := 0
  deriving DecidableEq, Repr

def Operand.r (n : Nat) : Operand := { kind := OpKind.reg, reg := n }

def Operand.i (v : Int) : Operand := { kind := OpKind.imm, imm := v }

structure Insn where
  mnemonic : String
  opStr : String := ""
  operands : List Operand := []
  deriving DecidableEq, Repr

/-- Python `str.startswith`. -/
def strStartsWith (s p : String) : Bool :=
  go s.toList p.toList
where
  go : List Char → List Char → Bool
    | _, [] => true
    | [], _ :: _ => false
    | a :: as, b :: bs => a == b && go as bs

/-- `_disasm_one(raw, off)` as used by `txm_jb.py` / `iboot_jb.py`:
decode the little-endian word at `off` through the facade. -/
def disAt (decode : Nat → Option Insn) (raw : List Nat) (off : Nat) : Option Insn :=
  decode (rd32 raw off)

/-! ## kernel_jb.py — branch encoders, code-cave allocator, AMFI rule -/

/-- `delta = (to_off - from_off) // 4` (Python floor division on ints). -/
def branchDelta (fromOff toOff : Nat) : Int :=
  Int.fdiv ((toOff : Int) - (fromOff : Int)) 4

/-- `KernelJBPatcher._encode_b`:

    delta = (to_off - from_off) // 4
    if delta < -(1 << 25) or delta >= (1 << 25): return None
    return struct.pack("<I", 0x14000000 | (delta & 0x3FFFFFF))

(Python `delta & 0x3FFFFFF` on a possibly-negative int is
`delta.emod (2^26)`.) -/
def encode_b (fromOff toOff : Nat) : Option (List Nat) :=
  let delta := branchDelta fromOff toOff
  if delta < -(2 ^ 25) ∨ delta ≥ 2 ^ 25 then none
  else some (packLE32 (0x14000000 ||| (delta % (2 ^ 26)).toNat))

/-- `KernelJBPatcher._encode_bl` (same range check, opcode `0x94000000`). -/
def encode_bl (fromOff toOff : Nat) : Option (List Nat) :=
  let delta := branchDelta fromOff toOff
  if delta < -(2 ^ 25) ∨ delta ≥ 2 ^ 25 then none
  else some (packLE32 (0x94000000 ||| (delta % (2 ^ 26)).toNat))

/-- Sign-extension of a 26-bit field, i.e. the displacement a CPU would
decode back out of a B/BL imm26 field. -/
def signExtend26 (x : Int) : Int :=
  if x < 2 ^ 25 then x else x - 2 ^ 26

/-- The filler-word test of `KernelJBPatcher._find_code_cave`:
all-zero, all-ones, or the UDF trap encoding `0xD4200000`. -/
def isFiller (v : Nat) : Bool :=
  v == 0x00000000 || v == 0xFFFFFFFF || v == 0xD4200000

/-- One executable range's scan of `_find_code_cave`: walk the 4-step
offsets keeping the current run of filler words (`runLen == 0` encodes
Python's `run_start < 0`), returning `run_start` as soon as the run
reaches `needed` bytes. -/
def caveScanRange (data : List Nat) (needed : Nat) :
    List Nat → Nat → Nat → Option Nat
  | [], _, _ => none
  | off :: rest, runStart, runLen =>
    if isFiller (rd32 data off) then
      let rs := if runLen == 0 then off else runStart
      let rl := runLen + 4
      if needed ≤ rl then some rs else caveScanRange data needed rest rs rl
    else caveScanRange data needed rest 0 0

/-- `KernelJBPatcher._find_code_cave(size, align=4)`.  Reads from the
mutable buffer `data`; `-1` is modelled as `none`. -/
def find_code_cave (data : List Nat) (codeRanges : List (Nat × Nat))
    (size align : Nat) : Option Nat :=
  let needed := (size + align - 1) / align * align
  codeRanges.findSome? fun r => caveScanRange data needed (pyRange4 r.1 r.2) 0 0

/-! ## cfw.py — helpers -/

instance : Inhabited Operand := ⟨Operand.r 0⟩

/-- `range(s, s + step*n, step)` as an explicit list. -/
def rangeStep (s step : Nat) : Nat → List Nat
  | 0 => []
  | n + 1 => s :: rangeStep (s + step) step n

/-- `range(s, e, step)` for a positive step. -/
def pyRangeStep (s e step : Nat) : List Nat :=
  rangeStep s step ((e - s + step - 1) / step)

/-- Python `frag in name` substring containment on byte strings. -/
def containsSub (name frag : List Nat) : Bool :=
  (List.range (name.length + 1)).any (matchesAt name frag)

def hexDigit (n : Nat) : Char :=
  if n < 10 then Char.ofNat (48 + n) else Char.ofNat (55 + n)

def toHexAux : Nat → Nat → List Char
  | 0, _ => []
  | fuel + 1, n => if n == 0 then [] else toHexAux fuel (n / 16) ++ [hexDigit (n % 16)]

/-- Python `f"0x{n:X}"` without the prefix: uppercase hex of `n`. -/
def toHexUpper (n : Nat) : String :=
  if n == 0 then "0" else String.mk (toHexAux (n + 1) n)

/-- The assembly line `f"b #0x{target:X}"` built by the patchers when
re-encoding an unconditional branch through keystone. -/
def bLine (target : Nat) : String := "b #0x" ++ toHexUpper target

/-- `cfw.asm_at` / `TXMJBPatcher._asm_at` / `IBootJBPatcher._asm_at`:

    enc, _ = _ks.asm(asm_line, addr=addr)
    if not enc: raise RuntimeError(f"asm failed at 0x{addr:X}: {asm_line}")
    return bytes(enc)

The keystone facade is a parameter `ks`; failure raises, modelled as
`Except.error` carrying the failed line and address. -/
def asm_at (ks : String → Nat → Option (List Nat)) (line : String) (addr : Nat) :
    Except (String × Nat) (List Nat) :=
  match ks line addr with
  | some enc => Except.ok enc
  | none => Except.error (line, addr)

/-- `NOP = asm("nop")` (0xD503201F, little endian). -/
def NOP_b : List Nat := [0x1F, 0x20, 0x03, 0xD5]

/-- `MOV_X0_1 = asm("mov x0, #1")` (0xD2800020). -/
def MOV_X0_1_b : List Nat := [0x20, 0x00, 0x80, 0xD2]

/-- `RET = asm("ret")` (0xD65F03C0). -/
def RET_b : List Nat := [0xC0, 0x03, 0x5F, 0xD6]

/-! ## cfw.py — Mach-O parsing -/

/-- One entry of the `parse_macho_sections` result dict
`"segment,section" -> (vm_addr, size, file_offset)`; the name pair is
kept as raw bytes (Python decodes them to `str`, which for the ASCII
names in play is the same equality). -/
structure MachoSection where
  segname : List Nat
  sectname : List Nat
  addr : Nat
  size : Nat
  foff : Nat
  deriving DecidableEq, Repr

/-- Inner `nsects` walk of `parse_macho_sections`. -/
def parseSects (data : List Nat) (segname : List Nat) :
    Nat → Nat → List MachoSection
  | 0, _ => []
  | n + 1, so =>
    let sectname := ((data.drop so).take 16).takeWhile (· ≠ 0)
    let addr := rd64 data (so + 32)
    let size := rd64 data (so + 40)
    let fileOff := rd32 data (so + 48)
    ⟨segname, sectname, addr, size, fileOff⟩ :: parseSects data segname n (so + 80)

/-- Load-command walk of `parse_macho_sections`. -/
def parseCmds (data : List Nat) : Nat → Nat → List MachoSection
  | 0, _ => []
  | n + 1, off =>
    let cmd := rd32 data off
    let cmdsize := rd32 data (off + 4)
    let here :=
      if cmd == 0x19 then
        let segname := ((data.drop (off + 8)).take 16).takeWhile (· ≠ 0)
        let nsects := rd32 data (off + 64)
        parseSects data segname nsects (off + 72)
      else []
    here ++ parseCmds data n (off + cmdsize)

/-- `parse_macho_sections(data)`; raises `ValueError` on a non-64-bit
magic, modelled as `none`. -/
def parse_macho_sections (data : List Nat) : Option (List MachoSection) :=
  if rd32 data 0 == 0xFEEDFACF then
    some (parseCmds data (rd32 data 16) 32)
  else none

/-- `find_section(sections, *candidates)`: first candidate name that is a
key of the dict.  Python dict semantics: a later insertion overrides an
earlier one with the same key, hence the reversed lookup. -/
def lookupSection (sections : List MachoSection) (seg sect : List Nat) :
    Option MachoSection :=
  sections.reverse.find? fun s => s.segname == seg && s.sectname == sect

def find_section (sections : List MachoSection) :
    List (List Nat × List Nat) → Option MachoSection
  | [] => none
  | c :: cs =>
    match lookupSection sections c.1 c.2 with
    | some s => some s
    | none => find_section sections cs

/-- The `for sec_name, (sva, ssz, sfoff) in sections.items()` scans that
locate the section containing a file offset (first match wins). -/
def sectionContaining (sections : List MachoSection) (off : Nat) :
    Option MachoSection :=
  sections.find? fun s => s.foff ≤ off && off < s.foff + s.size

/-- `find_symtab(data)`: `(symoff, nsyms, stroff, strsize)` of the first
`LC_SYMTAB`. -/
def findSymtabGo (data : List Nat) : Nat → Nat → Option (Nat × Nat × Nat × Nat)
  | 0, _ => none
  | n + 1, off =>
    let cmd := rd32 data off
    let cmdsize := rd32 data (off + 4)
    if cmd == 0x02 then
      some (rd32 data (off + 8), rd32 data (off + 12),
            rd32 data (off + 16), rd32 data (off + 20))
    else findSymtabGo data n (off + cmdsize)

def find_symtab (data : List Nat) : Option (Nat × Nat × Nat × Nat) :=
  findSymtabGo data (rd32 data 16) 32

/-- `find_symbol_va(data, name_fragment)`: VA of the first symbol whose
name contains `frag`, `-1` modelled as `none`. -/
def find_symbol_va (data : List Nat) (frag : List Nat) : Option Nat :=
  match find_symtab data with
  | none => none
  | some (symoff, nsyms, stroff, strsize) =>
    (List.range nsyms).findSome? fun i =>
      let entryOff := symoff + i * 16
      let nStrx := rd32 data entryOff
      let nValue := rd64 data (entryOff + 8)
      if strsize ≤ nStrx || nValue == 0 then none
      else
        let nameStart := stroff + nStrx
        let nameEnd := findNull data nameStart
        let name := (data.drop nameStart).take (nameEnd - nameStart)
        if containsSub name frag then some nValue else none

/-- `va_to_foff(data, va)`: segment-table address translation, `-1`
modelled as `none`. -/
def vaToFoffGo (data : List Nat) (va : Nat) : Nat → Nat → Option Nat
  | 0, _ => none
  | n + 1, off =>
    let cmd := rd32 data off
    let cmdsize := rd32 data (off + 4)
    if cmd == 0x19 then
      let vmaddr := rd64 data (off + 24)
      let vmsize := rd64 data (off + 32)
      let fileoff := rd64 data (off + 40)
      if vmaddr ≤ va && va < vmaddr + vmsize then some (fileoff + (va - vmaddr))
      else vaToFoffGo data va n (off + cmdsize)
    else vaToFoffGo data va n (off + cmdsize)

def va_to_foff (data : List Nat) (va : Nat) : Option Nat :=
  vaToFoffGo data va (rd32 data 16) 32

/-! ## cfw.py — string-anchor helpers -/

/-- Backward scan of `_find_cstring_start`, as a countdown over the
`matchOff - secFoff` candidate positions `matchOff-1, ..., secFoff`. -/
def cstringScan (data : List Nat) (secFoff : Nat) : Nat → Nat
  | 0 => secFoff
  | d + 1 =>
    let pos := secFoff + d
    if rd8 data pos ≠ 0 then cstringScan data secFoff d else pos + 1

/-- `_find_cstring_start(data, match_off, section_foff)`:

    pos = match_off - 1
    while pos >= section_foff and data[pos] != 0: pos -= 1
    return pos + 1
-/
def find_cstring_start (data : List Nat) (matchOff secFoff : Nat) : Nat :=
  cstringScan data secFoff (matchOff - secFoff)

/-- Register-indexed ADRP cache walk of `_find_adrp_add_ref`.  The cache
maps a destination register to `(insn_va, page_value, instruction_index)`;
consing a fresh entry shadows the stale one, matching the dict update. -/
def adrpAddGo (code : List Nat) (decode : Nat → Option Insn)
    (targetPage targetPageoff : Int) (baseVa : Nat) :
    List Nat → List (Nat × Nat × Int × Nat) → Option Nat
  | [], _ => none
  | off :: rest, cache =>
    let idx := off / 4
    match decode (rd32 code off) with
    | none => adrpAddGo code decode targetPage targetPageoff baseVa rest cache
    | some insn =>
      if insn.mnemonic == "adrp" && 2 ≤ insn.operands.length then
        let reg := (insn.operands.getD 0 default).reg
        let page := (insn.operands.getD 1 default).imm
        adrpAddGo code decode targetPage targetPageoff baseVa rest
          ((reg, baseVa + off, page, idx) :: cache)
      else if insn.mnemonic == "add" && 3 ≤ insn.operands.length then
        let srcReg := (insn.operands.getD 1 default).reg
        let imm := (insn.operands.getD 2 default).imm
        match cache.find? (fun e => e.1 == srcReg) with
        | some (_, adrpVa, page, adrpIdx) =>
          if page == targetPage && imm == targetPageoff && idx - adrpIdx ≤ 8 then
            some adrpVa
          else adrpAddGo code decode targetPage targetPageoff baseVa rest cache
        | none => adrpAddGo code decode targetPage targetPageoff baseVa rest cache
      else adrpAddGo code decode targetPage targetPageoff baseVa rest cache

/-- `_find_adrp_add_ref(code, base_va, target_va)`: scan
`range(0, len(code) - 4, 4)`, disassembling one word at a time, and
return the VA of the ADRP of the first ADRP/ADD pair that materialises
`target_va` with the ADD at most 8 instructions after the ADRP. -/
def find_adrp_add_ref (code : List Nat) (decode : Nat → Option Insn)
    (baseVa targetVa : Nat) : Option Nat :=
  let targetPage : Int := (targetVa / 4096 * 4096 : Nat)
  let targetPageoff : Int := (targetVa % 4096 : Nat)
  adrpAddGo code decode targetPage targetPageoff baseVa
    (pyRange4 0 (code.length - 4)) []

def branchMnemonics : List String := ["cbz", "cbnz", "tbz", "tbnz"]

def isCondBranchMnemonic (mn : String) : Bool :=
  branchMnemonics.contains mn || strStartsWith mn "b."

/-- `_find_nearby_branch(data, ref_foff, text_foff, text_size)`.
Strategy A: first BL within 16 instructions forward, then the first
conditional branch within the 8 instructions after that BL; strategy B:
first conditional branch within 32 instructions forward. -/
def find_nearby_branch (data : List Nat) (decode : Nat → Option Insn)
    (refFoff textFoff textSize : Nat) : Option Nat :=
  let bound := textFoff + textSize
  let stratA : Option Nat :=
    match (List.range 16).find? (fun delta =>
        let check := refFoff + delta * 4
        decide (check < bound) &&
          match disAt decode data check with
          | some insn => insn.mnemonic == "bl"
          | none => false) with
    | some delta =>
      let check := refFoff + delta * 4
      (((List.range 8).map (· + 1)).find? fun d2 =>
        let brFoff := check + d2 * 4
        decide (brFoff < bound) &&
          match disAt decode data brFoff with
          | some insn => isCondBranchMnemonic insn.mnemonic
          | none => false).map fun d2 => check + d2 * 4
    | none => none
  match stratA with
  | some br => some br
  | none =>
    ((List.range 32).map (· + 1)).find? (fun delta =>
      let check := refFoff + delta * 4
      decide (check < bound) &&
        match disAt decode data check with
        | some insn => isCondBranchMnemonic insn.mnemonic
        | none => false)
    |>.map fun delta => refFoff + delta * 4

/-! ## cfw.py — patch commands -/

/-- `patch_seputil(filepath)`: find `"/%s.gl\0"`, replace the `%s` with
`AA`, write the file.  Result: `(file written, return value)`. -/
def patch_seputil (data : List Nat) : Option (List Nat) × Bool :=
  let anchor := strBytes "/%s.gl" ++ [0]
  match listFind data anchor with
  | none => (none, false)
  | some off =>
    let d1 := pySliceAssign data (off + 1) [65]
    let d2 := pySliceAssign d1 (off + 2) [65]
    (some d2, true)

def cacheLoaderAnchors : List (List Nat) :=
  [strBytes "unsecure_cache", strBytes "unsecure",
   strBytes "cache_valid", strBytes "validation"]

/-- One anchor-string attempt of `patch_launchd_cache_loader`; returns
the patched buffer when the anchor leads to a NOPped branch. -/
def cacheLoaderTryAnchor (data : List Nat) (decode : Nat → Option Insn)
    (sections : List MachoSection) (textVa textSize textFoff : Nat)
    (anchorStr : List Nat) : Option (List Nat) :=
  match listFind data anchorStr with
  | none => none
  | some anchorOff =>
    match sectionContaining sections anchorOff with
    | none => none
    | some sec =>
      let strStartOff := find_cstring_start data anchorOff sec.foff
      let strStartVa := sec.addr + (strStartOff - sec.foff)
      let substrVa := sec.addr + (anchorOff - sec.foff)
      let code := (data.drop textFoff).take textSize
      let refVa :=
        match find_adrp_add_ref code decode textVa strStartVa with
        | some v => some v
        | none => find_adrp_add_ref code decode textVa substrVa
      match refVa with
      | none => none
      | some rv =>
        let refFoff := textFoff + (rv - textVa)
        match find_nearby_branch data decode refFoff textFoff textSize with
        | some branchFoff => some (pySliceAssign data branchFoff NOP_b)
        | none => none

def cacheLoaderLoop (data : List Nat) (decode : Nat → Option Insn)
    (sections : List MachoSection) (textVa textSize textFoff : Nat) :
    List (List Nat) → Option (List Nat)
  | [] => none
  | a :: rest =>
    match cacheLoaderTryAnchor data decode sections textVa textSize textFoff a with
    | some d => some d
    | none => cacheLoaderLoop data decode sections textVa textSize textFoff rest

/-- `patch_launchd_cache_loader(filepath)`.  `Except.error` is the
`ValueError` of `parse_macho_sections` on a non-Mach-O input. -/
def patch_launchd_cache_loader (data : List Nat) (decode : Nat → Option Insn) :
    Except String (Option (List Nat) × Bool) :=
  match parse_macho_sections data with
  | none => Except.error "Not a 64-bit Mach-O"
  | some sections =>
    match lookupSection sections (strBytes "__TEXT") (strBytes "__text") with
    | none => Except.ok (none, false)
    | some ts =>
      match cacheLoaderLoop data decode sections ts.addr ts.size ts.foff
          cacheLoaderAnchors with
      | some d => Except.ok (some d, true)
      | none => Except.ok (none, false)

/-- `_extract_branch_target_off(insn)`: last operand of immediate kind. -/
def extract_branch_target_off (insn : Insn) : Option Int :=
  insn.operands.reverse.findSome? fun op =>
    if op.kind == OpKind.imm then some op.imm else none

def jetsamCondMnemonics : List String :=
  ["b.eq", "b.ne", "b.cs", "b.hs", "b.cc", "b.lo",
   "b.mi", "b.pl", "b.vs", "b.vc", "b.hi", "b.ls",
   "b.ge", "b.lt", "b.gt", "b.le",
   "cbz", "cbnz", "tbz", "tbnz"]

/-- `_is_return_block(data, foff, text_foff, text_size)`. -/
def isReturnBlockGo (data : List Nat) (decode : Nat → Option Insn)
    (foff bound : Nat) : List Nat → Bool
  | [] => false
  | i :: rest =>
    let check := foff + i * 4
    if bound ≤ check then false
    else
      match disAt decode data check with
      | none => isReturnBlockGo data decode foff bound rest
      | some insn =>
        if insn.mnemonic == "ret" || insn.mnemonic == "retab" then true
        else if ["b", "bl", "br", "blr"].contains insn.mnemonic then false
        else isReturnBlockGo data decode foff bound rest

def is_return_block (data : List Nat) (decode : Nat → Option Insn)
    (foff textFoff textSize : Nat) : Bool :=
  isReturnBlockGo data decode foff (textFoff + textSize) (List.range 8)

def jetsamAnchors : List (List Nat) :=
  [strBytes "jetsam property category (Daemon) is not initialized",
   strBytes "jetsam property category",
   strBytes "initproc exited -- exit reason namespace 7 subcode 0x1"]

/-- Backward scan of `patch_launchd_jetsam`: walk offsets
`ref_foff-4, ref_foff-8, ..., scan_lo` and keep the *last* conditional
branch (i.e. the earliest in the file) whose target is a return block. -/
def jetsamBackScan (data : List Nat) (decode : Nat → Option Insn)
    (textFoff textSize : Nat) : List Nat → Option (Nat × Nat) → Option (Nat × Nat)
  | [], acc => acc
  | back :: rest, acc =>
    let acc' :=
      match disAt decode data back with
      | none => acc
      | some insn =>
        if jetsamCondMnemonics.contains insn.mnemonic then
          match extract_branch_target_off insn with
          | none => acc
          | some tgt =>
            if tgt < 0 then acc
            else
              let t := tgt.toNat
              if t < textFoff || textFoff + textSize ≤ t then acc
              else if is_return_block data decode t textFoff textSize then
                some (back, t)
              else acc
        else acc
    jetsamBackScan data decode textFoff textSize rest acc'

/-- One anchor attempt of `patch_launchd_jetsam`: locate the anchor,
normalise to the string start, resolve the xref, back-scan for the guard
branch.  Returns the `(patch_off, patch_target)` pair. -/
def jetsamTryAnchor (data : List Nat) (decode : Nat → Option Insn)
    (sections : List MachoSection) (textVa textSize textFoff : Nat)
    (anchor : List Nat) : Option (Nat × Nat) :=
  match listFind data anchor with
  | none => none
  | some hitOff =>
    match sectionContaining sections hitOff with
    | none => none
    | some sec =>
      let strStartOff := find_cstring_start data hitOff sec.foff
      let strStartVa := sec.addr + (strStartOff - sec.foff)
      let code := (data.drop textFoff).take textSize
      match find_adrp_add_ref code decode textVa strStartVa with
      | none => none
      | some refVa =>
        let refFoff := textFoff + (refVa - textVa)
        let scanLo := max textFoff (refFoff - 0x300)
        let count := if refFoff - 4 < scanLo then 0
          else (refFoff - 4 - scanLo) / 4 + 1
        jetsamBackScan data decode textFoff textSize
          (range4Down (refFoff - 4) count) none

def jetsamLoop (data : List Nat) (decode : Nat → Option Insn)
    (ks : String → Nat → Option (List Nat)) (sections : List MachoSection)
    (textVa textSize textFoff : Nat) :
    List (List Nat) → Except (String × Nat) (Option (List Nat) × Bool)
  | [] => Except.ok (none, false)
  | a :: rest =>
    match jetsamTryAnchor data decode sections textVa textSize textFoff a with
    | none => jetsamLoop data decode ks sections textVa textSize textFoff rest
    | some (patchOff, patchTarget) =>
      match asm_at ks (bLine patchTarget) patchOff with
      | Except.error e => Except.error e
      | Except.ok bb => Except.ok (some (pySliceAssign data patchOff bb), true)

/-- `patch_launchd_jetsam(filepath)`.  Errors: the `ValueError` of
`parse_macho_sections` (string payload) or a keystone `RuntimeError`
(line/address payload), merged into one message type. -/
def patch_launchd_jetsam (data : List Nat) (decode : Nat → Option Insn)
    (ks : String → Nat → Option (List Nat)) :
    Except (String × Nat) (Option (List Nat) × Bool) :=
  match parse_macho_sections data with
  | none => Except.error ("Not a 64-bit Mach-O", 0)
  | some sections =>
    match lookupSection sections (strBytes "__TEXT") (strBytes "__text") with
    | none => Except.ok (none, false)
    | some ts =>
      jetsamLoop data decode ks sections ts.addr ts.size ts.foff jetsamAnchors

/-- Selref pointer match of `_find_via_objc_metadata`, including the two
chained-fixup fallbacks. -/
def selrefMatches (ptr selVa : Nat) : Bool :=
  ptr == selVa || ptr % 2 ^ 48 == selVa || ptr % 2 ^ 32 == selVa % 2 ^ 32

def objcSelrefsCandidates : List (List Nat × List Nat) :=
  [(strBytes "__DATA_CONST", strBytes "__objc_selrefs"),
   (strBytes "__DATA", strBytes "__objc_selrefs"),
   (strBytes "__AUTH_CONST", strBytes "__objc_selrefs")]

def objcConstCandidates : List (List Nat × List Nat) :=
  [(strBytes "__DATA_CONST", strBytes "__objc_const"),
   (strBytes "__DATA", strBytes "__objc_const"),
   (strBytes "__AUTH_CONST", strBytes "__objc_const")]

/-- `_find_via_objc_metadata(data)`: selector string → selref entry →
relative method-list entry → IMP file offset. -/
def find_via_objc_metadata (data : List Nat) : Except (String × Nat) (Option Nat) := do
  let sections ←
    match parse_macho_sections data with
    | none => Except.error ("Not a 64-bit Mach-O", 0)
    | some s => Except.ok s
  let selector := strBytes "should_hactivate" ++ [0]
  match listFind data selector with
  | none => return none
  | some selFoff =>
    match sectionContaining sections selFoff with
    | none => return none
    | some selSec =>
      let selVa := selSec.addr + (selFoff - selSec.foff)
      let selref : Option (Nat × Nat) :=
        match find_section sections objcSelrefsCandidates with
        | none => none
        | some sr =>
          (pyRangeStep 0 sr.size 8).findSome? fun i =>
            if selrefMatches (rd64 data (sr.foff + i)) selVa then
              some (sr.foff + i, sr.addr + i)
            else none
      match selref with
      | none => return none
      | some (_, selrefVa) =>
        match find_section sections objcConstCandidates with
        | none => return none
        | some oc =>
          let hit := (pyRangeStep 0 (oc.size - 12) 4).findSome? fun i =>
            let entryFoff := oc.foff + i
            let entryVa := oc.addr + i
            let relName := rdS32 data entryFoff
            if (entryVa : Int) + relName == (selrefVa : Int) then
              let relImp := rdS32 data (entryFoff + 8)
              let impVa : Int := ((entryVa : Int) + 8) + relImp
              if impVa < 0 then none
              else va_to_foff data impVa.toNat
            else none
          return hit

/-- `patch_mobileactivationd(filepath)`: symbol-table strategy, then the
ObjC metadata chain, then patch the IMP to `mov x0, #1; ret`. -/
def patch_mobileactivationd (data : List Nat) :
    Except (String × Nat) (Option (List Nat) × Bool) :=
  let s1 : Option Nat := (find_symbol_va data (strBytes "should_hactivate")).bind
    (va_to_foff data)
  let impFoffE : Except (String × Nat) (Option Nat) :=
    match s1 with
    | some f => Except.ok (some f)
    | none => find_via_objc_metadata data
  match impFoffE with
  | Except.error e => Except.error e
  | Except.ok none => Except.ok (none, false)
  | Except.ok (some imp) =>
    if data.length < imp + 8 then Except.ok (none, false)
    else
      let d1 := pySliceAssign data imp MOV_X0_1_b
      let d2 := pySliceAssign d1 (imp + 4) RET_b
      Except.ok (some d2, true)

/-! ## cfw.py — dylib injection -/

def _align8 (n : Nat) : Nat := (n + 7) / 8 * 8

/-- `_get_fat_slices(data)`. -/
def get_fat_slices (data : List Nat) : List (Nat × Nat) :=
  let magic := rdBE32 data 0
  if magic == 0xCAFEBABE then
    (List.range (rdBE32 data 4)).map fun i =>
      (rdBE32 data (8 + i * 20 + 8), rdBE32 data (8 + i * 20 + 12))
  else if magic == 0xBEBAFECA then
    (List.range (rdBE32 data 4)).map fun i =>
      (rdBE64 data (8 + i * 32 + 8), rdBE64 data (8 + i * 32 + 16))
  else [(0, data.length)]

def dylibLoadCmds : List Nat := [0xC, 0xD, 0x18, 0x1F, 0x80000018]

/-- Load-command walk of `_check_existing_dylib`. -/
def checkExistingGo (data : List Nat) (path : List Nat) : Nat → Nat → Bool
  | 0, _ => false
  | n + 1, off =>
    let cmd := rd32 data off
    let cmdsize := rd32 data (off + 4)
    let hit :=
      if dylibLoadCmds.contains cmd then
        let nameOff := off + rd32 data (off + 8)
        let nameEnd := findNull data nameOff
        (data.drop nameOff).take (nameEnd - nameOff) == path
      else false
    hit || checkExistingGo data path n (off + cmdsize)

/-- `_check_existing_dylib(data, base, dylib_path)`. -/
def check_existing_dylib (data : List Nat) (base : Nat) (path : List Nat) : Bool :=
  if rd32 data base == 0xFEEDFACF then
    checkExistingGo data path (rd32 data (base + 16)) (base + 32)
  else false

/-- Last-load-command walk of `_strip_codesig`: `(offset, cmd, cmdsize)`
of the final command. -/
def lastCmdGo (data : List Nat) : Nat → Nat → Nat × Nat × Nat
  | 0, off => (off, 0, 0)
  | 1, off => (off, rd32 data off, rd32 data (off + 4))
  | n + 2, off => lastCmdGo data (n + 1) (off + rd32 data (off + 4))

/-- `_strip_codesig(data, base)`: zero a trailing `LC_CODE_SIGNATURE`
and fix up `ncmds`/`sizeofcmds`; returns the new buffer and the number
of bytes freed (0 when the last command is not a code signature). -/
def strip_codesig (data : List Nat) (base : Nat) : List Nat × Nat :=
  let ncmds := rd32 data (base + 16)
  let sizeofcmds := rd32 data (base + 20)
  if ncmds == 0 then (data, 0)
  else
    let (lastOff, lastCmd, lastCmdsize) := lastCmdGo data ncmds (base + 32)
    if lastCmd ≠ 0x1D then (data, 0)
    else
      let d1 := pySliceAssign data lastOff (List.replicate lastCmdsize 0)
      let d2 := wr32 d1 (base + 16) (ncmds - 1)
      let d3 := wr32 d2 (base + 20) (sizeofcmds - lastCmdsize)
      (d3, lastCmdsize)

/-- Section walk of `_find_first_section_offset` (on the slice at
`base`, hence all reads are `base`-relative and the returned offset is
slice-relative). -/
def firstSectGo (data : List Nat) (base : Nat) : Nat → Nat → Nat → Nat
  | 0, _, earliest => earliest
  | n + 1, so, earliest =>
    let fileOff := rd32 data (base + so + 48)
    let size := rd64 data (base + so + 40)
    let earliest' :=
      if 0 < fileOff && 0 < size && fileOff < earliest then fileOff else earliest
    firstSectGo data base n (so + 80) earliest'

def firstSectCmds (data : List Nat) (base : Nat) : Nat → Nat → Nat → Nat
  | 0, _, earliest => earliest
  | n + 1, off, earliest =>
    let cmd := rd32 data (base + off)
    let cmdsize := rd32 data (base + off + 4)
    let earliest' :=
      if cmd == 0x19 then
        firstSectGo data base (rd32 data (base + off + 64)) (off + 72) earliest
      else earliest
    firstSectCmds data base n (off + cmdsize) earliest'

/-- `_find_first_section_offset(data[base:])`; `-1` (bad magic) is `none`. -/
def find_first_section_offset (data : List Nat) (base : Nat) : Option Nat :=
  if rd32 data base == 0xFEEDFACF then
    some (firstSectCmds data base (rd32 data (base + 16)) 32 (data.length - base))
  else none

/-- The `LC_LOAD_DYLIB` command bytes built by `_inject_lc_load_dylib`. -/
def buildLc (path : List Nat) : List Nat :=
  let nameBytes := path ++ [0]
  let cmdSize := _align8 (24 + nameBytes.length)
  packLE32 0xC ++ packLE32 cmdSize ++ packLE32 24 ++ packLE32 2 ++
    packLE32 0 ++ packLE32 0 ++ nameBytes ++
    List.replicate (cmdSize - (24 + nameBytes.length)) 0

def lcCmdSize (path : List Nat) : Nat := _align8 (24 + path.length + 1)

/-- The `available = first_section_abs - header_end` quantity of
`_inject_lc_load_dylib`, as a function of the buffer whose
`sizeofcmds` header field is consulted (after a strip, the re-read
`sizeofcmds` comes from the updated buffer). -/
def lcAvailable (d : List Nat) (base fs : Nat) : Int :=
  ((base + fs : Nat) : Int) - ((base + 32 + rd32 d (base + 20) : Nat) : Int)

/-- The successful tail of `_inject_lc_load_dylib` on a working buffer
`d`: write the new command at the end of the load commands and bump
`ncmds` / `sizeofcmds`. -/
def lcFinalize (d : List Nat) (base : Nat) (path : List Nat) : List Nat :=
  let lc := buildLc path
  let headerEnd := base + 32 + rd32 d (base + 20)
  wr32 (wr32 (pySliceAssign d headerEnd lc) (base + 16) (rd32 d (base + 16) + 1))
    (base + 20) (rd32 d (base + 20) + lc.length)

/-- Body of `_inject_lc_load_dylib` once the first-section offset is
known: fit into padding, else strip a trailing code signature, else
overflow into section data by at most 256 bytes (an overflow above the
ceiling fails without writing the command). -/
def inject_lc_fit (data : List Nat) (base : Nat) (path : List Nat) (fs : Nat) :
    List Nat × Bool :=
  let cmdSize := (buildLc path).length
  let data1 :=
    if lcAvailable data base fs < (cmdSize : Int) then (strip_codesig data base).1
    else data
  if lcAvailable data1 base fs < (cmdSize : Int) &&
      256 < (cmdSize : Int) - lcAvailable data1 base fs then (data1, false)
  else (lcFinalize data1 base path, true)

/-- `_inject_lc_load_dylib(data, base, dylib_path)`: fit the new command
into header padding, else strip a trailing code signature, else overflow
into section data by at most 256 bytes; returns the updated buffer and
success. -/
def inject_lc_load_dylib (data : List Nat) (base : Nat) (path : List Nat) :
    List Nat × Bool :=
  if rd32 data base ≠ 0xFEEDFACF then (data, false)
  else
    match find_first_section_offset data base with
    | none => (data, false)
    | some fs => inject_lc_fit data base path fs

/-- `inject_dylib(filepath, dylib_path)`: inject into every slice;
write the file only when every slice was patched (or already satisfied). -/
def inject_dylib (data : List Nat) (path : List Nat) : Option (List Nat) × Bool :=
  let slices := get_fat_slices data
  let r := slices.foldl (fun (acc : List Nat × Nat) s =>
    if check_existing_dylib acc.1 s.1 path then (acc.1, acc.2 + 1)
    else
      let (d', ok) := inject_lc_load_dylib acc.1 s.1 path
      (d', if ok then acc.2 + 1 else acc.2)) (data, 0)
  if r.2 == slices.length then (some r.1, true) else (none, false)

/-! ## txm_jb.py — TXMJBPatcher

The patcher state: `raw` is the immutable snapshot the scans read,
`decode` the capstone facade, `ks` the keystone facade.  `data` (the
mutable working copy, initially equal to `raw`) only matters to
`apply`, which is `applyPatchesLoop` over the found patches. -/

/-- A registered patch `(offset, replacement bytes)`; the human-readable
description is dropped. -/
abbrev Patch := Nat × List Nat

structure TxmImage where
  raw : List Nat
  decode : Nat → Option Insn
  ks : String → Nat → Option (List Nat)

def TxmImage.size (img : TxmImage) : Nat := img.raw.length

def TxmImage.dis (img : TxmImage) (off : Nat) : Option Insn :=
  disAt img.decode img.raw off

/-- `PACIBSP = _asm("hint #27")` (0xD503237F, little endian). -/
def pacibspBytes : List Nat := [0x7F, 0x23, 0x03, 0xD5]

/-- `MOV_X0_0` (0xD2800000). -/
def MOV_X0_0_b : List Nat := [0x00, 0x00, 0x80, 0xD2]

/-- `MOV_W0_1` (0x52800020). -/
def MOV_W0_1_b : List Nat := [0x20, 0x00, 0x80, 0x52]

/-- `MOV_X0_X20` (0xAA1403E0). -/
def MOV_X0_X20_b : List Nat := [0xE0, 0x03, 0x14, 0xAA]

/-- `STRB_W0_X20_30 = _asm("strb w0, [x20, #0x30]")` (0x3900C280). -/
def STRB_W0_X20_30_b : List Nat := [0x80, 0xC2, 0x00, 0x39]

/-- `TXMJBPatcher._find_func_start(off, back=0x1000)`: scan backwards
from `off & ~3` for the raw PACIBSP bytes. -/
def txm_find_func_start (raw : List Nat) (off back : Nat) : Option Nat :=
  let start := off - back
  let aligned := off / 4 * 4
  (range4Down aligned ((aligned - start) / 4 + 1)).find? fun scan =>
    decide ((raw.drop scan).take 4 = pacibspBytes)

/-- `TXMJBPatcher._find_refs_to_offset(target_off)`: *adjacent*
ADRP/ADD pairs whose immediates sum to `target_off`. -/
def txm_find_refs_to_offset (img : TxmImage) (targetOff : Nat) :
    List (Nat × Nat) :=
  (pyRange4 0 (img.size - 8)).filterMap fun off =>
    match img.dis off, img.dis (off + 4) with
    | some a, some b =>
      if a.mnemonic == "adrp" && b.mnemonic == "add" &&
          2 ≤ a.operands.length && 3 ≤ b.operands.length &&
          (a.operands.getD 0 default).reg == (b.operands.getD 1 default).reg &&
          (a.operands.getD 1 default).imm + (b.operands.getD 2 default).imm
            == (targetOff : Int) then
        some (off, off + 4)
      else none
    | _, _ => none

/-- `TXMJBPatcher._find_string_refs(needle)`: for every occurrence of
`needle`, the ADRP/ADD refs to the *occurrence offset itself* (no
normalisation to the enclosing C-string start), deduplicated on the ADRP
offset. -/
def txm_find_string_refs (img : TxmImage) (needle : List Nat) :
    List (Nat × Nat × Nat) :=
  ((allOccurrences img.raw needle).foldl (fun acc sOff =>
    (txm_find_refs_to_offset img sOff).foldl (fun acc2 r =>
      if acc2.2.contains r.1 then acc2
      else (acc2.1 ++ [(sOff, r.1, r.2)], acc2.2 ++ [r.1])) acc)
    (([] : List (Nat × Nat × Nat)), ([] : List Nat))).1

def insertNew (l : List Nat) (x : Nat) : List Nat :=
  if l.contains x then l else l ++ [x]

/-- The BL/TBNZ/MOV-x2/MOV-x0 call-site shape shared by
`_find_debugger_gate_func_start` and
`patch_debugger_entitlement_force_true`. -/
def debuggerSiteAt (img : TxmImage) (scan : Nat) : Bool :=
  8 ≤ scan &&
    match img.dis scan, img.dis (scan + 4), img.dis (scan - 4), img.dis (scan - 8) with
    | some i, some n, some p1, some p2 =>
      i.mnemonic == "bl" &&
        n.mnemonic == "tbnz" && strStartsWith n.opStr "w0, #0," &&
        p1.mnemonic == "mov" && p1.opStr == "x2, #0" &&
        p2.mnemonic == "mov" && p2.opStr == "x0, #0"
    | _, _, _, _ => false

/-- `TXMJBPatcher._find_debugger_gate_func_start`. -/
def find_debugger_gate_func_start (img : TxmImage) : Option Nat :=
  let refs := txm_find_string_refs img (strBytes "com.apple.private.cs.debugger")
  let starts := refs.foldl (fun starts r =>
    (pyRange4 r.2.2 (min (r.2.2 + 0x20) (img.size - 8))).foldl (fun starts scan =>
      if debuggerSiteAt img scan then
        match txm_find_func_start img.raw scan 0x1000 with
        | some fs => insertNew starts fs
        | none => starts
      else starts) starts) ([] : List Nat)
  match starts with
  | [fs] => some fs
  | _ => none

def udfBranchMnemonics : List String :=
  ["b", "b.eq", "b.ne", "b.lo", "b.hs", "cbz", "cbnz", "tbz", "tbnz"]

/-- Length (in words) of the run of all-zero words starting at `off`,
staying below `endB` (the inner `while` of `_find_udf_cave`). -/
def zeroWordRun (raw : List Nat) (endB : Nat) : Nat → Nat → Nat
  | 0, _ => 0
  | fuel + 1, off =>
    if off < endB && decide ((raw.drop off).take 4 = [0, 0, 0, 0]) then
      1 + zeroWordRun raw endB fuel (off + 4)
    else 0

/-- Outer loop of `_find_udf_cave`; `best` carries the
closest-so-far fallback candidate `(offset, distance)`. -/
def udfCaveGo (img : TxmImage) (need endB : Nat) (nearOff : Option Nat) :
    Nat → Nat → Option (Nat × Nat) → Option Nat
  | 0, _, best => best.map (·.1)
  | fuel + 1, off, best =>
    if endB ≤ off then best.map (·.1)
    else
      let run := off + 4 * zeroWordRun img.raw endB endB off
      if need ≤ run - off then
        let prev := if 4 ≤ off then img.dis (off - 4) else none
        let prevIsBranch :=
          match prev with
          | some p => udfBranchMnemonics.contains p.mnemonic
          | none => false
        if prevIsBranch then some off
        else
          let best' :=
            match nearOff with
            | some near =>
              if (img.dis off).isSome then
                let dist := ((off : Int) - near).natAbs
                match best with
                | none => some (off, dist)
                | some (_, bd) => if dist < bd then some (off, dist) else best
              else best
            | none => best
          udfCaveGo img need endB nearOff fuel
            (if off < run then run + 4 else off + 4) best'
      else
        udfCaveGo img need endB nearOff fuel
          (if off < run then run + 4 else off + 4) best

/-- `TXMJBPatcher._find_udf_cave(min_insns=6, near_off=None, max_distance=0x80000)`. -/
def find_udf_cave (img : TxmImage) (minInsns : Nat) (nearOff : Option Nat)
    (maxDistance : Nat) : Option Nat :=
  let need := minInsns * 4
  let start := match nearOff with | none => 0 | some n => n - 0x1000
  let endB := match nearOff with | none => img.size | some n => min img.size (n + maxDistance)
  udfCaveGo img need endB nearOff (endB + 4) start none

/-! ### txm_jb.py — the six JB rules -/

/-- Match sites of `patch_selector24_hashcmp_calls`:
`mov w2, #0x14` / `bl` / `cbz w0, ...` at `off`, `off+4`, `off+8`. -/
def hashcmpSiteAt (img : TxmImage) (off : Nat) : Bool :=
  match img.dis off, img.dis (off + 4), img.dis (off + 8) with
  | some i0, some i1, some i2 =>
    i0.mnemonic == "mov" && i0.opStr == "w2, #0x14" &&
      i1.mnemonic == "bl" && i2.mnemonic == "cbz" &&
      strStartsWith i2.opStr "w0,"
  | _, _, _ => false

def hashcmpSites (img : TxmImage) : List Nat :=
  (pyRange4 0 (img.size - 8)).filter (hashcmpSiteAt img)

/-- `TXMJBPatcher.patch_selector24_hashcmp_calls`: one
`bl -> mov x0,#0` patch is emitted *per matched site during the scan*;
only afterwards the count is validated (`> 3` or `== 0` returns False,
with the already-emitted patches left registered). -/
def patch_selector24_hashcmp_calls (img : TxmImage) : List Patch × Bool :=
  let sites := hashcmpSites img
  let patches := sites.map fun off => ((off + 4 : Nat), MOV_X0_0_b)
  if 3 < sites.length then (patches, false)
  else if sites.length == 0 then (patches, false)
  else (patches, true)

/-- Match sites of `patch_selector24_a1_path`: `mov w0, #0xa1` preceded
by `b.lo` at `-0xC` and `cbz x9, ...` at `-0x4`.  (For `scan < 0xC`
Python would read wrapped negative slices; such a scan never matches the
pattern and is modelled as a non-match.) -/
def a1SiteAt (img : TxmImage) (scan : Nat) : Bool :=
  12 ≤ scan &&
    match img.dis scan, img.dis (scan - 0xC), img.dis (scan - 4) with
    | some ins, some iblo, some icbz =>
      ins.mnemonic == "mov" && ins.opStr == "w0, #0xa1" &&
        iblo.mnemonic == "b.lo" && icbz.mnemonic == "cbz" &&
        strStartsWith icbz.opStr "x9,"
    | _, _, _ => false

/-- `TXMJBPatcher.patch_selector24_a1_path`. -/
def patch_selector24_a1_path (img : TxmImage) : List Patch × Bool :=
  match (pyRange4 0 (img.size - 4)).filter (a1SiteAt img) with
  | [off] => ([(off - 0xC, NOP_b), (off - 0x4, NOP_b)], true)
  | _ => ([], false)

/-- `TXMJBPatcher.patch_get_task_allow_force_true`. -/
def patch_get_task_allow_force_true (img : TxmImage) : List Patch × Bool :=
  let refs := txm_find_string_refs img (strBytes "get-task-allow")
  if refs.isEmpty then ([], false)
  else
    let cands := refs.flatMap fun r =>
      (pyRange4 r.2.2 (min (r.2.2 + 0x20) (img.size - 4))).filter fun scan =>
        match img.dis scan, img.dis (scan + 4) with
        | some i, some n =>
          i.mnemonic == "bl" && n.mnemonic == "tbnz" &&
            strStartsWith n.opStr "w0, #0,"
        | _, _ => false
    match cands with
    | [c] => ([(c, MOV_X0_1_b)], true)
    | _ => ([], false)

/-- Stub shape of `patch_selector42_29_shellcode`: `bti j` then
`mov x0,x20; bl; mov x1,x21; mov x2,x22; bl <fn>; b`. -/
def selector42StubAt (img : TxmImage) (fn off : Nat) : Bool :=
  match img.dis (off - 4), img.dis off, img.dis (off + 4), img.dis (off + 8),
      img.dis (off + 12), img.dis (off + 16), img.dis (off + 20) with
  | some p, some i0, some i1, some i2, some i3, some i4, some i5 =>
    p.mnemonic == "bti" && p.opStr == "j" &&
      i0.mnemonic == "mov" && i0.opStr == "x0, x20" &&
      i1.mnemonic == "bl" && i2.mnemonic == "mov" && i2.opStr == "x1, x21" &&
      i3.mnemonic == "mov" && i3.opStr == "x2, x22" &&
      i4.mnemonic == "bl" && i5.mnemonic == "b" &&
      !i4.operands.isEmpty && (i4.operands.getD 0 default).imm == (fn : Int)
  | _, _, _, _, _, _, _ => false

def selector42Stubs (img : TxmImage) (fn : Nat) : List Nat :=
  (pyRange4 4 (img.size - 24)).filter (selector42StubAt img fn)

/-- The patch-emission tail of `patch_selector42_29_shellcode` once the
stub and cave are known: two `_asm_at` calls (each may raise) and the
six emitted patches. -/
def selector42Emit (img : TxmImage) (stubOff cave : Nat) :
    Except (String × Nat) (List Patch × Bool) := do
  let b1 ← asm_at img.ks (bLine cave) stubOff
  let b2 ← asm_at img.ks (bLine (stubOff + 4)) (cave + 16)
  return ([(stubOff, b1), (cave, NOP_b), (cave + 4, MOV_X0_1_b),
           (cave + 8, STRB_W0_X20_30_b), (cave + 12, MOV_X0_X20_b),
           (cave + 16, b2)], true)

/-- `patch_selector42_29_shellcode` after the stub is validated: find
the UDF cave near it (failure returns False). -/
def selector42WithStub (img : TxmImage) (stubOff : Nat) :
    Except (String × Nat) (List Patch × Bool) :=
  match find_udf_cave img 6 (some stubOff) 0x80000 with
  | none => Except.ok ([], false)
  | some cave => selector42Emit img stubOff cave

/-- `patch_selector42_29_shellcode` after the gate function is known:
require exactly one stub site. -/
def selector42WithFn (img : TxmImage) (fn : Nat) :
    Except (String × Nat) (List Patch × Bool) :=
  match selector42Stubs img fn with
  | [stubOff] => selector42WithStub img stubOff
  | _ => Except.ok ([], false)

/-- `TXMJBPatcher.patch_selector42_29_shellcode`: dynamic cave shellcode
plus branch redirect.  The two `_asm_at` calls can raise (keystone
failure), hence the `Except`. -/
def patch_selector42_29_shellcode (img : TxmImage) :
    Except (String × Nat) (List Patch × Bool) :=
  match find_debugger_gate_func_start img with
  | none => Except.ok ([], false)
  | some fn => selector42WithFn img fn

/-- `TXMJBPatcher.patch_debugger_entitlement_force_true`. -/
def patch_debugger_entitlement_force_true (img : TxmImage) : List Patch × Bool :=
  let refs := txm_find_string_refs img (strBytes "com.apple.private.cs.debugger")
  if refs.isEmpty then ([], false)
  else
    let cands := refs.flatMap fun r =>
      (pyRange4 r.2.2 (min (r.2.2 + 0x20) (img.size - 4))).filter
        (debuggerSiteAt img)
    match cands with
    | [c] => ([(c, MOV_W0_1_b)], true)
    | _ => ([], false)

/-- Descending `range(s, lo - 1, -4)` restricted to values `> lo - 1`,
i.e. `s, s-4, ...` strictly greater than `lo - 1` — here in the
`(add_off - 4, max(add_off - 0x20, 0), -4)` form of
`patch_developer_mode_bypass` (exclusive lower endpoint). -/
def range4DownExcl (s lo : Nat) : List Nat :=
  range4Down s (if s ≤ lo then 0 else (s - lo - 1) / 4 + 1)

/-- `TXMJBPatcher.patch_developer_mode_bypass`. -/
def patch_developer_mode_bypass (img : TxmImage) : List Patch × Bool :=
  let refs := txm_find_string_refs img
    (strBytes "developer mode enabled due to system policy configuration")
  if refs.isEmpty then ([], false)
  else
    let cands := refs.flatMap fun r =>
      (range4DownExcl (r.2.2 - 4) (r.2.2 - 0x20)).filter fun back =>
        match img.dis back with
        | some ins =>
          ["tbz", "tbnz", "cbz", "cbnz"].contains ins.mnemonic &&
            strStartsWith ins.opStr "w9, #0,"
        | none => false
    match cands with
    | [c] => ([(c, NOP_b)], true)
    | _ => ([], false)

/-- `TXMJBPatcher.find_all`: run the six rules in order, accumulating
their emitted patches on `self.patches`.  A keystone `RuntimeError` in
rule 4 propagates (there is no `try`/`except` anywhere in the chain), so
the remaining rules never run. -/
def txm_find_all (img : TxmImage) : Except (String × Nat) (List Patch) :=
  match patch_selector42_29_shellcode img with
  | Except.error e => Except.error e
  | Except.ok r4 =>
    Except.ok ((patch_selector24_hashcmp_calls img).1 ++
      (patch_selector24_a1_path img).1 ++
      (patch_get_task_allow_force_true img).1 ++ r4.1 ++
      (patch_debugger_entitlement_force_true img).1 ++
      (patch_developer_mode_bypass img).1)

/-- `TXMJBPatcher.apply`: `find_all`, then the patch write loop over the
working buffer (initially the snapshot); returns the patched buffer and
the patch count `len(self.patches)`. -/
def txm_apply (img : TxmImage) : Except (String × Nat) (List Nat × Nat) :=
  match txm_find_all img with
  | Except.error e => Except.error e
  | Except.ok ps => Except.ok (applyPatchesLoop ps img.raw, ps.length)

/-! ## kernel_jb.py — the AMFI trustcache rule

The `KernelJBPatcher` state needed by `patch_amfi_cdhash_in_trustcache`:
the `_disas_at` facade and the `amfi_text` range. -/

structure KernelImage where
  disK : Nat → Option Insn
  amfiText : Nat × Nat

/-- `CBZ_X2_8 = asm("cbz x2, #8")` (0xB4000042). -/
def CBZ_X2_8_b : List Nat := [0x42, 0x00, 0x00, 0xB4]

/-- `STR_X0_X2 = asm("str x0, [x2]")` (0xF9000040). -/
def STR_X0_X2_b : List Nat := [0x40, 0x00, 0x00, 0xF9]

/-- The inner func-end refinement of `patch_amfi_cdhash_in_trustcache`:
the first PACIBSP strictly after `off`, capped at `off + 0x200` and the
section end. -/
def amfiFuncEnd (img : KernelImage) (off e : Nat) : Nat :=
  let fe := min (off + 0x200) e
  match (pyRange4 (off + 4) fe).find? (fun p =>
      match img.disK p with
      | some i => i.mnemonic == "pacibsp"
      | none => false) with
  | some p => p
  | none => fe

/-- The `insns` list built from `off` to `func_end`, stopping at the
first failed disassembly. -/
def buildInsns (img : KernelImage) : List Nat → List Insn
  | [] => []
  | p :: rest =>
    match img.disK p with
    | none => []
    | some i => i :: buildInsns img rest

/-- `_find_after(insns, start, pred)`. -/
def findAfterIdx (insns : List Insn) (start : Nat) (p : Insn → Bool) : Option Nat :=
  ((insns.drop start).findIdx? p).map (start + ·)

/-- The seven-step semantic body match of
`patch_amfi_cdhash_in_trustcache`. -/
def amfiBodyMatch (insns : List Insn) : Bool :=
  (do
    let i1 ← findAfterIdx insns 0 fun x =>
      x.mnemonic == "mov" && x.opStr == "x19, x2"
    let i2 ← findAfterIdx insns (i1 + 1) fun x =>
      x.mnemonic == "stp" && strStartsWith x.opStr "xzr, xzr, [sp"
    let i3 ← findAfterIdx insns (i2 + 1) fun x =>
      x.mnemonic == "mov" && x.opStr == "x2, sp"
    let i4 ← findAfterIdx insns (i3 + 1) fun x => x.mnemonic == "bl"
    let i5 ← findAfterIdx insns (i4 + 1) fun x =>
      x.mnemonic == "mov" && x.opStr == "x20, x0"
    let i6 ← findAfterIdx insns (i5 + 1) fun x =>
      x.mnemonic == "cbnz" && strStartsWith x.opStr "w0,"
    let _ ← findAfterIdx insns (i6 + 1) fun x =>
      x.mnemonic == "cbz" && strStartsWith x.opStr "x19,"
    some ()).isSome

/-- The `hits` list of `patch_amfi_cdhash_in_trustcache`: PACIBSP
function starts in `amfi_text` whose body matches the seven-step shape. -/
def amfiHits (img : KernelImage) : List Nat :=
  let s := img.amfiText.1
  let e := img.amfiText.2
  (pyRange4 s (e - 4)).filter fun off =>
    (match img.disK off with
     | some d => d.mnemonic == "pacibsp"
     | none => false) &&
      amfiBodyMatch (buildInsns img (pyRange4 off (amfiFuncEnd img off e)))

/-- `KernelJBPatcher.patch_amfi_cdhash_in_trustcache`: the entire match
set is validated (`len(hits) != 1` fails) before any patch is emitted. -/
def patch_amfi_cdhash_in_trustcache (img : KernelImage) : List Patch × Bool :=
  match amfiHits img with
  | [h] => ([(h, MOV_X0_1_b), (h + 4, CBZ_X2_8_b),
             (h + 8, STR_X0_X2_b), (h + 12, RET_b)], true)
  | _ => ([], false)

/-! ## Statement helpers -/

/-- Little-endian word list to byte list (each word below `2^32`). -/
def wordsToBytes : List Nat → List Nat
  | [] => []
  | w :: ws => packLE32 w ++ wordsToBytes ws

/-- `offs` is the consecutive 4-step offset chain starting at `c`. -/
def chain4 : Nat → List Nat → Prop
  | _, [] => True
  | c, h :: t => h = c ∧ chain4 (c + 4) t

/-- The rounded-up cave size `(size + align - 1) // align * align` for the
default `align = 4` of `_find_code_cave`. -/
def needed4 (S : Nat) : Nat := (S + 3) / 4 * 4

/-! ## Concrete images for witnesses and counterexamples -/

def noDecode : Nat → Option Insn := fun _ => none

def noKs : String → Nat → Option (List Nat) := fun _ _ => none

/-- An empty TXM image (no bytes, nothing decodes). -/
def emptyTxm : TxmImage := { raw := [], decode := noDecode, ks := noKs }

/-- A kernel image with an empty AMFI text range. -/
def trivKernel : KernelImage := { disK := fun _ => none, amfiText := (0, 0) }

/-- Decoder for the selector-24 hashcmp counterexample: word 1 is
`mov w2, #0x14`, word 2 is `bl`, word 3 is `cbz w0, ...`. -/
def c2decode : Nat → Option Insn := fun w =>
  if w == 1 then some { mnemonic := "mov", opStr := "w2, #0x14" }
  else if w == 2 then some { mnemonic := "bl" }
  else if w == 3 then some { mnemonic := "cbz", opStr := "w0, #0x40" }
  else none

/-- A TXM image containing four hashcmp call sites (at offsets
0, 12, 24, 36). -/
def c2img : TxmImage :=
  { raw := wordsToBytes [1, 2, 3, 1, 2, 3, 1, 2, 3, 1, 2, 3, 0],
    decode := c2decode, ks := noKs }

/-- 20 bytes of zero filler words in one executable range. -/
def c3dataFF : List Nat := wordsToBytes [0, 0, 0, 0, 0]

/-- Two non-filler words followed by three zero words. -/
def c3data : List Nat := wordsToBytes [1, 1, 0, 0, 0]

def c4adrp : Insn :=
  { mnemonic := "adrp", operands := [Operand.r 1, Operand.i 131072] }

def c4add : Insn :=
  { mnemonic := "add", operands := [Operand.r 2, Operand.r 1, Operand.i 291] }

def c4nop : Insn := { mnemonic := "nop" }

def c4adrpOther : Insn :=
  { mnemonic := "adrp", operands := [Operand.r 7, Operand.i 999424] }

/-- Word-keyed decoder for the synthetic ADRP/ADD streams: word 1 is the
ADRP of page 0x20000 into x1, word 2 the matching ADD of 0x123, word 3 a
NOP, word 4 an ADRP of an unrelated page into x7. -/
def c4decode : Nat → Option Insn := fun w =>
  if w == 1 then some c4adrp
  else if w == 2 then some c4add
  else if w == 3 then some c4nop
  else if w == 4 then some c4adrpOther
  else none

/-- Synthetic code with the ADRP at word 0 and the matching ADD `d`
instructions later (separated by `d - 1` NOPs), plus one trailing word so
the ADD is inside the `range(0, len(code) - 4, 4)` scan. -/
def c4code (d : Nat) : List Nat :=
  wordsToBytes ([1] ++ List.replicate (d - 1) 3 ++ [2, 3])

/-- The target VA 0x20123 (page 0x20000, page offset 0x123). -/
def c4target : Nat := 131363

/-- Decoder for the TXM non-adjacency counterexample: word 10 is an ADRP
summing to offset 12 with word 12's ADD; word 11 a NOP between them. -/
def cnaDecode : Nat → Option Insn := fun w =>
  if w == 10 then some { mnemonic := "adrp", operands := [Operand.r 1, Operand.i 12] }
  else if w == 11 then some c4nop
  else if w == 12 then some { mnemonic := "add", operands := [Operand.r 2, Operand.r 1, Operand.i 0] }
  else none

/-- TXM image whose ADRP (offset 0) and matching ADD (offset 8) are two
instructions apart, with a NOP in between. -/
def cnaImg : TxmImage :=
  { raw := wordsToBytes [10, 11, 12, 0], decode := cnaDecode, ks := noKs }

def c5decode : Nat → Option Insn := fun w =>
  if w == 20 then some { mnemonic := "adrp", operands := [Operand.r 1, Operand.i 9] }
  else if w == 21 then some { mnemonic := "add", operands := [Operand.r 2, Operand.r 1, Operand.i 0] }
  else none

/-- Buffer holding the C string `"andl"` at offset 8 (so the substring
`"ndl"` matches at offset 9, strictly inside the string), with an
adjacent ADRP/ADD pair at offsets 0/4 materialising offset 9. -/
def c5raw : List Nat := wordsToBytes [20, 21] ++ strBytes "andl" ++ [0]

def c5img : TxmImage := { raw := c5raw, decode := c5decode, ks := noKs }

/-- Decoder for the TXM selector42|29 image, keyed on word values
0x10..0x1C. -/
def c9decode : Nat → Option Insn := fun w =>
  if w == 0x10 then some { mnemonic := "bti", opStr := "j" }
  else if w == 0x11 then some { mnemonic := "mov", opStr := "x0, x20" }
  else if w == 0x12 then some { mnemonic := "bl", opStr := "#0x200", operands := [Operand.i 999] }
  else if w == 0x13 then some { mnemonic := "mov", opStr := "x1, x21" }
  else if w == 0x14 then some { mnemonic := "mov", opStr := "x2, x22" }
  else if w == 0x15 then some { mnemonic := "bl", opStr := "#0", operands := [Operand.i 0] }
  else if w == 0x16 then some { mnemonic := "b", opStr := "#0x100", operands := [Operand.i 256] }
  else if w == 0x17 then some { mnemonic := "adrp", opStr := "x5, #0x50", operands := [Operand.r 5, Operand.i 80] }
  else if w == 0x18 then some { mnemonic := "add", opStr := "x6, x5, #0", operands := [Operand.r 6, Operand.r 5, Operand.i 0] }
  else if w == 0x19 then some { mnemonic := "mov", opStr := "x0, #0" }
  else if w == 0x1A then some { mnemonic := "mov", opStr := "x2, #0" }
  else if w == 0x1B then some { mnemonic := "bl", opStr := "#0x300", operands := [Operand.i 768] }
  else if w == 0x1C then some { mnemonic := "tbnz", opStr := "w0, #0, #0x100", operands := [Operand.r 32, Operand.i 0, Operand.i 256] }
  else none

/-- A 112-byte TXM image on which `patch_selector42_29_shellcode`
reaches its first `_asm_at` call: PACIBSP function start at 0, the
selector stub at offset 8, a six-word UDF cave at offset 32 directly
after the stub's `b`, the debugger-gate call-site pattern at offset 72
anchored through the ADRP/ADD pair at offsets 56/60 to the
`com.apple.private.cs.debugger` string at offset 80.  Its keystone
facade always fails. -/
def c9img : TxmImage :=
  { raw := wordsToBytes
      [0xD503237F, 0x10, 0x11, 0x12, 0x13, 0x14, 0x15, 0x16,
       0, 0, 0, 0, 0, 0,
       0x17, 0x18, 0x19, 0x1A, 0x1B, 0x1C] ++
      strBytes "com.apple.private.cs.debugger" ++ [0, 0, 0],
    decode := c9decode, ks := noKs }

/-- Thin 64-byte Mach-O that already carries `LC_LOAD_DYLIB "/x"`. -/
def c6macho : List Nat :=
  packLE32 0xFEEDFACF ++ List.replicate 12 0 ++ packLE32 1 ++ packLE32 32 ++
    List.replicate 8 0 ++
    packLE32 0xC ++ packLE32 32 ++ packLE32 24 ++ packLE32 2 ++
    List.replicate 8 0 ++ [0x2F, 0x78, 0] ++ List.replicate 5 0

/-- Thin 288-byte Mach-O with one `__TEXT` segment and one `__text`
section whose data starts at file offset 280, leaving 96 bytes of
padding after the 184-byte header. -/
def c7macho : List Nat :=
  packLE32 0xFEEDFACF ++ List.replicate 12 0 ++ packLE32 1 ++ packLE32 152 ++
    List.replicate 8 0 ++
    packLE32 0x19 ++ packLE32 152 ++ (strBytes "__TEXT" ++ List.replicate 10 0) ++
    List.replicate 40 0 ++ packLE32 1 ++ packLE32 0 ++
    (strBytes "__text" ++ List.replicate 10 0) ++ List.replicate 16 0 ++
    packLE64 0 ++ packLE64 8 ++ packLE32 280 ++ List.replicate 28 0 ++
    List.replicate 104 0

/-- A bare 32-byte Mach-O header (valid magic, zero load commands). -/
def hdr32 : List Nat := packLE32 0xFEEDFACF ++ List.replicate 28 0

/-! # Theorems -/

/-! ## Generic list/byte lemmas -/

theorem getD_append_left : ∀ (l1 l2 : List Nat) (i : Nat), i < l1.length →
    (l1 ++ l2).getD i 0 = l1.getD i 0 := by
  intro l1
  induction l1 with
  | nil => intro l2 i h; simp at h
  | cons a t ih =>
    intro l2 i h
    cases i with
    | zero => rfl
    | succ i => simpa using ih l2 i (by simpa using h)

theorem getD_append_right : ∀ (l1 l2 : List Nat) (i : Nat),
    (l1 ++ l2).getD (l1.length + i) 0 = l2.getD i 0 := by
  intro l1
  induction l1 with
  | nil => intro l2 i; simp
  | cons a t ih =>
    intro l2 i
    have : (a :: t).length + i = (t.length + i) + 1 := by simp; omega
    rw [this]
    simpa using ih l2 i

theorem getD_take_lt : ∀ (l : List Nat) (n i : Nat), i < n →
    (l.take n).getD i 0 = l.getD i 0 := by
  intro l
  induction l with
  | nil => intro n i _; simp
  | cons a t ih =>
    intro n i h
    cases n with
    | zero => omega
    | succ n =>
      cases i with
      | zero => rfl
      | succ i => simpa using ih n i (by omega)

theorem getD_drop_add : ∀ (l : List Nat) (n i : Nat),
    (l.drop n).getD i 0 = l.getD (n + i) 0 := by
  intro l
  induction l with
  | nil => intro n i; simp
  | cons a t ih =>
    intro n i
    cases n with
    | zero => simp
    | succ n =>
      have : (n + 1) + i = (n + i) + 1 := by omega
      rw [this]
      simp only [List.drop_succ_cons, List.getD_cons_succ]
      exact ih n i

theorem pySliceAssign_length (data : List Nat) (off : Nat) (pb : List Nat)
    (h : off + pb.length ≤ data.length) :
    (pySliceAssign data off pb).length = data.length := by
  simp [pySliceAssign]
  omega

theorem pySliceAssign_getD_low (data : List Nat) (off : Nat) (pb : List Nat)
    (hb : off + pb.length ≤ data.length) (i : Nat) (hi : i < off) :
    rd8 (pySliceAssign data off pb) i = rd8 data i := by
  have hlen : (data.take off).length = off := by
    simp [List.length_take]; omega
  have hlen2 : i < (data.take off ++ pb).length := by
    simp [List.length_take]; omega
  rw [rd8, rd8, pySliceAssign, getD_append_left _ _ i hlen2,
    getD_append_left _ _ i (by rw [hlen]; exact hi),
    getD_take_lt _ _ _ hi]

theorem pySliceAssign_getD_mid (data : List Nat) (off : Nat) (pb : List Nat)
    (hb : off + pb.length ≤ data.length) (j : Nat) (hj : j < pb.length) :
    rd8 (pySliceAssign data off pb) (off + j) = rd8 pb j := by
  have hlen : (data.take off).length = off := by
    simp [List.length_take]; omega
  have hlen2 : off + j < (data.take off ++ pb).length := by
    simp [List.length_take]; omega
  rw [rd8, rd8, pySliceAssign, getD_append_left _ _ _ hlen2]
  rw [show off + j = (data.take off).length + j from by rw [hlen]]
  rw [getD_append_right]

theorem pySliceAssign_getD_high (data : List Nat) (off : Nat) (pb : List Nat)
    (hb : off + pb.length ≤ data.length) (i : Nat) (hi : off + pb.length ≤ i) :
    rd8 (pySliceAssign data off pb) i = rd8 data i := by
  have hlen : (data.take off ++ pb).length = off + pb.length := by
    simp [List.length_take]; omega
  rw [rd8, rd8, pySliceAssign]
  rw [show data.take off ++ pb ++ data.drop (off + pb.length)
      = (data.take off ++ pb) ++ data.drop (off + pb.length) from rfl]
  rw [show i = (data.take off ++ pb).length + (i - off - pb.length) from by
    rw [hlen]; omega]
  rw [getD_append_right, getD_drop_add]
  congr 1
  omega

/-- C1: For every image buffer and every patcher (`KernelJBPatcher`,
`TXMJBPatcher`, `IBootJBPatcher`), the patch write loop of `apply()`
preserves the total length of the mutable buffer, and every registered
in-bounds patch `(offset, bytes)` overwrites exactly `len(bytes)` bytes
in place: bytes below `offset` and at or above `offset + len(bytes)` are
unchanged, the patched range holds exactly the patch bytes, and the
buffer neither grows nor shrinks. -/
theorem apply_is_length_preserving :
    (∀ (patches : List Patch) (data : List Nat),
      (∀ p ∈ patches, p.1 + p.2.length ≤ data.length) →
      (applyPatchesLoop patches data).length = data.length) ∧
    (∀ (data : List Nat) (off : Nat) (pb : List Nat),
      off + pb.length ≤ data.length →
      (pySliceAssign data off pb).length = data.length ∧
      (∀ i, i < off → rd8 (pySliceAssign data off pb) i = rd8 data i) ∧
      (∀ i, off + pb.length ≤ i → rd8 (pySliceAssign data off pb) i = rd8 data i) ∧
      (∀ j, j < pb.length → rd8 (pySliceAssign data off pb) (off + j) = rd8 pb j)) := by
  constructor
  · intro patches
    induction patches with
    | nil => intro data _; rfl
    | cons p ps ih =>
      intro data h
      have h1 : p.1 + p.2.length ≤ data.length := h p (List.mem_cons_self _ _)
      have hlen := pySliceAssign_length data p.1 p.2 h1
      have hrest : ∀ q ∈ ps, q.1 + q.2.length ≤ (pySliceAssign data p.1 p.2).length := by
        intro q hq
        rw [hlen]
        exact h q (List.mem_cons_of_mem _ hq)
      calc (applyPatchesLoop (p :: ps) data).length
          = (applyPatchesLoop ps (pySliceAssign data p.1 p.2)).length := rfl
        _ = (pySliceAssign data p.1 p.2).length := ih _ hrest
        _ = data.length := hlen
  · intro data off pb h
    exact ⟨pySliceAssign_length data off pb h,
      fun i hi => pySliceAssign_getD_low data off pb h i hi,
      fun i hi => pySliceAssign_getD_high data off pb h i hi,
      fun j hj => pySliceAssign_getD_mid data off pb h j hj⟩

/-- C1 witness: a concrete two-byte patch at offset 1 of a four-byte
buffer keeps the length at 4, leaves bytes 0 and 3 alone, and lands the
patch bytes at offsets 1 and 2. -/
theorem apply_is_length_preserving_witness :
    (applyPatchesLoop [(1, [9, 9])] [1, 2, 3, 4]).length = 4 ∧
    rd8 (pySliceAssign [1, 2, 3, 4] 1 [9, 9]) 0 = 1 ∧
    rd8 (pySliceAssign [1, 2, 3, 4] 1 [9, 9]) 3 = 4 ∧
    rd8 (pySliceAssign [1, 2, 3, 4] 1 [9, 9]) 1 = 9 := by
  have h1 := apply_is_length_preserving.1 [(1, [9, 9])] [1, 2, 3, 4]
    (by intro p hp; simp at hp; simp [hp])
  have h2 := apply_is_length_preserving.2 [1, 2, 3, 4] 1 [9, 9] (by simp)
  refine ⟨h1, ?_, ?_, ?_⟩
  · exact (h2.2.1 0 (by decide)).trans rfl
  · exact (h2.2.2.1 3 (by decide)).trans rfl
  · exact (h2.2.2.2 0 (by decide)).trans rfl

/-! ## C8: branch re-encoding range validation -/

/-- C8: `_encode_b` (and `_encode_bl`) return `None` exactly when the
word displacement `(to_off - from_off) // 4` lies below `-2^25` or at or
above `2^25`; otherwise they return the 4-byte B (resp. BL) encoding
whose 26-bit immediate field sign-extends back to exactly that
displacement — never a truncated or wrapped encoding. -/
theorem encode_b_range_exact : ∀ (fromOff toOff : Nat),
    (encode_b fromOff toOff = none ↔
      (branchDelta fromOff toOff < -(2 ^ 25) ∨ 2 ^ 25 ≤ branchDelta fromOff toOff)) ∧
    (encode_bl fromOff toOff = none ↔
      (branchDelta fromOff toOff < -(2 ^ 25) ∨ 2 ^ 25 ≤ branchDelta fromOff toOff)) ∧
    (-(2 ^ 25) ≤ branchDelta fromOff toOff → branchDelta fromOff toOff < 2 ^ 25 →
      encode_b fromOff toOff =
        some (packLE32 (0x14000000 ||| ((branchDelta fromOff toOff) % (2 ^ 26)).toNat)) ∧
      encode_bl fromOff toOff =
        some (packLE32 (0x94000000 ||| ((branchDelta fromOff toOff) % (2 ^ 26)).toNat)) ∧
      signExtend26 ((branchDelta fromOff toOff) % (2 ^ 26)) = branchDelta fromOff toOff) := by
  intro f t
  refine ⟨?_, ?_, ?_⟩
  · constructor
    · intro hn
      by_contra hc
      simp only [encode_b] at hn
      rw [if_neg hc] at hn
      exact Option.some_ne_none _ hn
    · intro hc
      simp only [encode_b]
      rw [if_pos hc]
  · constructor
    · intro hn
      by_contra hc
      simp only [encode_bl] at hn
      rw [if_neg hc] at hn
      exact Option.some_ne_none _ hn
    · intro hc
      simp only [encode_bl]
      rw [if_pos hc]
  · intro h1 h2
    have hno : ¬(branchDelta f t < -(2 ^ 25) ∨ branchDelta f t ≥ 2 ^ 25) := by
      push_neg
      exact ⟨by omega, h2⟩
    refine ⟨by simp only [encode_b]; rw [if_neg hno],
      by simp only [encode_bl]; rw [if_neg hno], ?_⟩
    have e25 : (2 : Int) ^ 25 = 33554432 := by norm_num
    have e26 : (2 : Int) ^ 26 = 67108864 := by norm_num
    rw [signExtend26, e25, e26]
    rw [e25] at h1 h2
    split <;> omega

/-- C8 witness: a displacement of `2^26` words is rejected; a
displacement of 2 words encodes and sign-extends back to 2. -/
theorem encode_b_range_exact_witness :
    encode_b 0 268435456 = none ∧
    encode_b 0 8 = some (packLE32 (0x14000000 ||| ((branchDelta 0 8) % (2 ^ 26)).toNat)) ∧
    signExtend26 ((branchDelta 0 8) % (2 ^ 26)) = branchDelta 0 8 :=
  ⟨(encode_b_range_exact 0 268435456).1.mpr (by decide),
   ((encode_b_range_exact 0 8).2.2 (by decide) (by decide)).1,
   ((encode_b_range_exact 0 8).2.2 (by decide) (by decide)).2.2⟩

/-! ## C2: match-cardinality gating -/

/-- C2 counterexample: on an image with four selector-24 hashcmp sites
(one more than the expected maximum of 3),
`patch_selector24_hashcmp_calls` returns False yet has already
registered one patch per site — the patches reach the shared buffer in
`apply()` even though the rule "failed closed". -/
theorem hashcmp_overmatch_registers_patches_cex :
    patch_selector24_hashcmp_calls c2img =
      ([(4, MOV_X0_0_b), (16, MOV_X0_0_b), (28, MOV_X0_0_b), (40, MOV_X0_0_b)],
       false) ∧
    (patch_selector24_hashcmp_calls c2img).1 ≠ [] := by
  constructor
  · decide
  · decide

/-- C2 (amended): `patch_amfi_cdhash_in_trustcache` validates its whole
match set before emitting — any hit count other than 1 returns False
with no patch registered.  `patch_selector24_hashcmp_calls` also returns
False when its site count is 0 or exceeds 3, but it emits its patches
*during* the scan, so on an over-match the count of already-registered
patches equals the site count instead of 0 (only the zero-match case
registers nothing). -/
theorem rule_cardinality_gating :
    (∀ img : TxmImage,
      ((hashcmpSites img).length = 0 →
        patch_selector24_hashcmp_calls img = ([], false)) ∧
      (3 < (hashcmpSites img).length →
        (patch_selector24_hashcmp_calls img).2 = false ∧
          (patch_selector24_hashcmp_calls img).1.length = (hashcmpSites img).length)) ∧
    (∀ img : KernelImage, (amfiHits img).length ≠ 1 →
      patch_amfi_cdhash_in_trustcache img = ([], false)) := by
  constructor
  · intro img
    constructor
    · intro h0
      have he : hashcmpSites img = [] := List.length_eq_zero.mp h0
      simp [patch_selector24_hashcmp_calls, he]
    · intro h3
      unfold patch_selector24_hashcmp_calls
      rw [if_pos h3]
      exact ⟨rfl, by simp⟩
  · intro img h
    unfold patch_amfi_cdhash_in_trustcache
    rcases hl : amfiHits img with _ | ⟨a, _ | ⟨b, t⟩⟩
    · rfl
    · exfalso
      apply h
      rw [hl]
      rfl
    · rfl

/-- C2 witness: an empty TXM image has zero hashcmp sites and the rule
registers nothing; a kernel image with an empty AMFI text range has zero
trustcache hits and the rule registers nothing. -/
theorem rule_cardinality_gating_witness :
    patch_selector24_hashcmp_calls emptyTxm = ([], false) ∧
    patch_amfi_cdhash_in_trustcache trivKernel = ([], false) :=
  ⟨(rule_cardinality_gating.1 emptyTxm).1 (by decide),
   rule_cardinality_gating.2 trivKernel (by decide)⟩

/-! ## C3: code-cave allocation -/

theorem findSome?_exists {α β : Type} (f : α → Option β) :
    ∀ (l : List α) (b : β), l.findSome? f = some b → ∃ a ∈ l, f a = some b := by
  intro l
  induction l with
  | nil => intro b h; simp [List.findSome?] at h
  | cons a t ih =>
    intro b h
    rw [List.findSome?_cons] at h
    cases hf : f a with
    | some v =>
      rw [hf] at h
      exact ⟨a, List.mem_cons_self _ _, hf.trans h⟩
    | none =>
      rw [hf] at h
      obtain ⟨x, hx, hfx⟩ := ih b h
      exact ⟨x, List.mem_cons_of_mem _ hx, hfx⟩

theorem chain4_range4 : ∀ (n s : Nat), chain4 s (range4 s n) := by
  intro n
  induction n with
  | zero => intro s; trivial
  | succ n ih => intro s; exact ⟨rfl, ih (s + 4)⟩

/-- If the per-range cave scan returns a start offset, that offset is
4-aligned (relative to the 4-aligned range start) and the whole `needed`
bytes from it read as filler words in the scanned buffer. -/
theorem caveScanRange_sound (data : List Nat) (needed : Nat) :
    ∀ (offs : List Nat) (cur rs rl o : Nat),
      chain4 cur offs → cur % 4 = 0 →
      (0 < rl → (cur = rs + rl ∧ rs % 4 = 0 ∧ rl % 4 = 0 ∧
        ∀ j, 4 * j < rl → isFiller (rd32 data (rs + 4 * j)) = true)) →
      caveScanRange data needed offs rs rl = some o →
      o % 4 = 0 ∧ ∀ j, 4 * j < needed → isFiller (rd32 data (o + 4 * j)) = true := by
  intro offs
  induction offs with
  | nil =>
    intro cur rs rl o _ _ _ h
    simp [caveScanRange] at h
  | cons off rest ih =>
    intro cur rs rl o hch hcur hinv hscan
    obtain ⟨hoff, hch'⟩ := hch
    subst hoff
    rw [caveScanRange] at hscan
    by_cases hf : isFiller (rd32 data off) = true
    · rw [if_pos hf] at hscan
      have hinv' : (off + 4) = (if rl == 0 then off else rs) + (rl + 4) ∧
          (if rl == 0 then off else rs) % 4 = 0 ∧ (rl + 4) % 4 = 0 ∧
          ∀ j, 4 * j < rl + 4 →
            isFiller (rd32 data ((if rl == 0 then off else rs) + 4 * j)) = true := by
        by_cases h0 : rl = 0
        · subst h0
          refine ⟨by simp, by simp [hcur], by simp, ?_⟩
          intro j hj
          have : j = 0 := by omega
          subst this
          simpa using hf
        · have hi := hinv (Nat.pos_of_ne_zero h0)
          have hb : (rl == 0) = false := by simp [h0]
          rw [hb]
          simp only [if_false, Bool.false_eq_true]
          refine ⟨by omega, hi.2.1, by omega, ?_⟩
          intro j hj
          by_cases hjl : 4 * j < rl
          · exact hi.2.2.2 j hjl
          · have h4 : 4 * j = rl := by
              have := hi.2.2.1
              omega
            have : rs + 4 * j = off := by omega
            rw [this]
            exact hf
      by_cases hn : needed ≤ rl + 4
      · rw [if_pos hn] at hscan
        have ho : o = (if rl == 0 then off else rs) := by
          cases hscan
          rfl
        subst ho
        refine ⟨hinv'.2.1, ?_⟩
        intro j hj
        exact hinv'.2.2.2 j (by omega)
      · rw [if_neg hn] at hscan
        exact ih (off + 4) _ (rl + 4) o hch' (by omega) (fun _ => hinv') hscan
    · rw [if_neg hf] at hscan
      exact ih (off + 4) 0 0 o hch' (by omega) (by omega) hscan

theorem find_code_cave_sound (data : List Nat) (ranges : List (Nat × Nat))
    (S o : Nat) (hr : ∀ r ∈ ranges, r.1 % 4 = 0)
    (h : find_code_cave data ranges S 4 = some o) :
    o % 4 = 0 ∧ ∀ j, 4 * j < needed4 S → isFiller (rd32 data (o + 4 * j)) = true := by
  unfold find_code_cave at h
  obtain ⟨r, hmem, hscan⟩ := findSome?_exists _ _ _ h
  have hneed : (S + 4 - 1) / 4 * 4 = needed4 S := by
    unfold needed4
    congr 1
  exact hneed ▸ caveScanRange_sound data ((S + 4 - 1) / 4 * 4) (pyRange4 r.1 r.2)
    r.1 0 0 o (chain4_range4 _ _) (hr r hmem) (by omega) hscan

/-- C3 counterexample: on an all-zero executable range, the first
allocation of an 8-byte cave returns offset 0; after the first rule's
patches overwrite exactly that span with `0xFF` filler words (as
`patch_syscallmask_apply_to_proc` does with its ten `0xffffffff` pad
words), a second back-to-back allocation of the same size returns offset
0 again — the identical, fully overlapping span. -/
theorem code_cave_reoffered_cex :
    find_code_cave c3dataFF [(0, 20)] 8 4 = some 0 ∧
    find_code_cave (emitWriteThrough [(0, List.replicate 8 0xFF)] c3dataFF)
      [(0, 20)] 8 4 = some 0 ∧
    ¬(0 + needed4 8 ≤ 0 ∨ 0 + needed4 8 ≤ 0) := by
  refine ⟨by decide, by decide, by decide⟩

/-- C3 (amended): provided the first rule's registered patches overwrite
its cave span with *non-filler* words (values other than `0x00000000`,
`0xFFFFFFFF` and `0xD4200000`), a second `_find_code_cave` scan of the
working buffer (which reflects prior writes) never returns a span
overlapping that cave: any returned cave of the same request size is
disjoint from the overwritten span.  A rule that writes filler-valued
words into its cave (as `patch_syscallmask_apply_to_proc` does) can have
its span re-offered. -/
theorem code_cave_disjoint_after_nonfiller_write :
    ∀ (dataW : List Nat) (ranges : List (Nat × Nat)) (S o1 o2 : Nat),
      (∀ r ∈ ranges, r.1 % 4 = 0) →
      o1 % 4 = 0 →
      (∀ j, 4 * j < needed4 S → isFiller (rd32 dataW (o1 + 4 * j)) = false) →
      find_code_cave dataW ranges S 4 = some o2 →
      o1 + needed4 S ≤ o2 ∨ o2 + needed4 S ≤ o1 := by
  intro dataW ranges S o1 o2 hr h1 hnf h2
  obtain ⟨ho2, hfill⟩ := find_code_cave_sound dataW ranges S o2 hr h2
  by_contra hcon
  push_neg at hcon
  obtain ⟨hlt1, hlt2⟩ := hcon
  by_cases hle : o1 ≤ o2
  · have hd4 : (o2 - o1) % 4 = 0 := by omega
    have hj : 4 * ((o2 - o1) / 4) = o2 - o1 := by omega
    have hlt : 4 * ((o2 - o1) / 4) < needed4 S := by omega
    have hfalse := hnf ((o2 - o1) / 4) hlt
    have htrue := hfill 0 (by omega)
    rw [show o1 + 4 * ((o2 - o1) / 4) = o2 by omega] at hfalse
    rw [show o2 + 4 * 0 = o2 by omega] at htrue
    rw [htrue] at hfalse
    exact absurd hfalse (by simp)
  · have hd4 : (o1 - o2) % 4 = 0 := by omega
    have hj : 4 * ((o1 - o2) / 4) = o1 - o2 := by omega
    have hlt : 4 * ((o1 - o2) / 4) < needed4 S := by omega
    have htrue := hfill ((o1 - o2) / 4) hlt
    have hfalse := hnf 0 (by omega)
    rw [show o2 + 4 * ((o1 - o2) / 4) = o1 by omega] at htrue
    rw [show o1 + 4 * 0 = o1 by omega] at hfalse
    rw [htrue] at hfalse
    exact absurd hfalse (by simp)

/-- C3 witness: with the span `[0, 8)` overwritten by non-filler words,
the next 8-byte allocation lands at offset 8, disjoint from `[0, 8)`. -/
theorem code_cave_disjoint_witness :
    0 + needed4 8 ≤ 8 ∨ 8 + needed4 8 ≤ 0 :=
  code_cave_disjoint_after_nonfiller_write c3data [(0, 20)] 8 0 8
    (by decide) (by decide)
    (by
      intro j hj
      have hn : needed4 8 = 8 := by decide
      rw [hn] at hj
      have : j = 0 ∨ j = 1 := by omega
      rcases this with h | h <;> subst h <;> decide)
    (by decide)

/-! ## C4: cross-reference resolution window -/

theorem wordsToBytes_length : ∀ (ws : List Nat),
    (wordsToBytes ws).length = 4 * ws.length := by
  intro ws
  induction ws with
  | nil => rfl
  | cons w t ih => simp [wordsToBytes, packLE32, ih]; omega

theorem rd8_packLE32_append (w : Nat) (l : List Nat) (k : Nat) :
    rd8 (packLE32 w ++ l) (4 + k) = rd8 l k := by
  have h4 : (packLE32 w).length = 4 := rfl
  rw [rd8, rd8, show 4 + k = (packLE32 w).length + k from by rw [h4],
    getD_append_right]

theorem rd32_packLE32_append_shift (w : Nat) (l : List Nat) (k : Nat) :
    rd32 (packLE32 w ++ l) (k + 4) = rd32 l k := by
  simp only [rd32]
  rw [show k + 4 = 4 + k from by omega, rd8_packLE32_append,
    show 4 + k + 1 = 4 + (k + 1) from by omega, rd8_packLE32_append,
    show 4 + k + 2 = 4 + (k + 2) from by omega, rd8_packLE32_append,
    show 4 + k + 3 = 4 + (k + 3) from by omega, rd8_packLE32_append]

theorem rd32_packLE32_append_zero (w : Nat) (l : List Nat) :
    rd32 (packLE32 w ++ l) 0 = w % 4294967296 := by
  simp [rd32, rd8, packLE32, List.getD]
  omega

theorem rd32_wordsToBytes : ∀ (ws : List Nat) (i : Nat),
    rd32 (wordsToBytes ws) (4 * i) = (ws.getD i 0) % 4294967296 := by
  intro ws
  induction ws with
  | nil => intro i; simp [wordsToBytes, rd32, rd8]
  | cons w t ih =>
    intro i
    cases i with
    | zero =>
      simpa [wordsToBytes] using rd32_packLE32_append_zero w (wordsToBytes t)
    | succ i =>
      rw [show 4 * (i + 1) = 4 * i + 4 from by omega]
      unfold wordsToBytes
      rw [rd32_packLE32_append_shift]
      simpa using ih i

theorem getD_replicate_lt (a : Nat) : ∀ (n i : Nat), i < n →
    (List.replicate n a).getD i 0 = a := by
  intro n
  induction n with
  | zero => intro i h; omega
  | succ n ih =>
    intro i h
    cases i with
    | zero => rfl
    | succ i =>
      rw [List.replicate_succ, List.getD_cons_succ]
      exact ih i (by omega)

theorem c4word_nop (d s : Nat) (h1 : 1 ≤ s) (hs : s < d) :
    rd32 (c4code d) (4 * s) = 3 := by
  rw [show c4code d = wordsToBytes ([1] ++ List.replicate (d - 1) 3 ++ [2, 3]) from rfl,
    rd32_wordsToBytes]
  have hg : ([1] ++ List.replicate (d - 1) 3 ++ [2, 3]).getD s 0 = 3 := by
    have he : [1] ++ List.replicate (d - 1) 3 ++ [2, 3]
        = 1 :: (List.replicate (d - 1) 3 ++ [2, 3]) := by simp
    rw [he, show s = (s - 1) + 1 from by omega, List.getD_cons_succ]
    rw [getD_append_left _ _ _ (by simp; omega)]
    exact getD_replicate_lt 3 (d - 1) (s - 1) (by omega)
  rw [hg]

theorem c4word_add (d : Nat) (h1 : 1 ≤ d) :
    rd32 (c4code d) (4 * d) = 2 := by
  rw [show c4code d = wordsToBytes ([1] ++ List.replicate (d - 1) 3 ++ [2, 3]) from rfl,
    rd32_wordsToBytes]
  have hg : ([1] ++ List.replicate (d - 1) 3 ++ [2, 3]).getD d 0 = 2 := by
    have he : [1] ++ List.replicate (d - 1) 3 ++ [2, 3]
        = 1 :: (List.replicate (d - 1) 3 ++ [2, 3]) := by simp
    rw [he, show d = (d - 1) + 1 from by omega, List.getD_cons_succ]
    have h := getD_append_right (List.replicate (d - 1) 3) [2, 3] 0
    simp only [List.length_replicate, Nat.add_zero] at h
    simpa using h
  rw [hg]

theorem c4go (d : Nat) (hd : 1 ≤ d) :
    ∀ (c s : Nat), 1 ≤ s → s ≤ d → s + c = d + 1 →
      adrpAddGo (c4code d) c4decode 131072 291 16384 (range4 (4 * s) c)
        [(1, 16384, 131072, 0)] =
        if d ≤ 8 then some 16384 else none := by
  intro c
  induction c with
  | zero => intro s h1 hs hsum; omega
  | succ c ih =>
    intro s h1 hs hsum
    rw [range4, adrpAddGo]
    by_cases hlast : s = d
    · subst hlast
      have hc0 : c = 0 := by omega
      subst hc0
      rw [c4word_add s h1]
      have hd2 : c4decode 2 = some c4add := by decide
      rw [hd2]
      simp only [c4add]
      norm_num
      rw [if_neg (by decide : ¬("add" = "adrp"))]
      rw [if_pos (by decide : 1 = (Operand.r 1).reg)]
      simp only [Operand.i]
      by_cases h8 : s ≤ 8
      · rw [if_pos h8]
        exact if_pos ⟨⟨trivial, trivial⟩, by omega⟩
      · rw [if_neg h8]
        rw [if_neg (fun hcon => h8 (by have := hcon.2; omega))]
        rfl
    · rw [c4word_nop d s h1 (by omega)]
      have hd3 : c4decode 3 = some c4nop := by decide
      rw [hd3]
      simp only [c4nop]
      norm_num
      rw [show 4 * s + 4 = 4 * (s + 1) from by omega]
      exact ih (s + 1) (by omega) (by omega) (by omega)

theorem txm_refs_adjacent (img : TxmImage) (target : Nat) :
    ∀ p ∈ txm_find_refs_to_offset img target, p.2 = p.1 + 4 := by
  intro p hp
  unfold txm_find_refs_to_offset at hp
  rw [List.mem_filterMap] at hp
  obtain ⟨off, _, hf⟩ := hp
  split at hf
  · split at hf
    · cases hf
      rfl
    · cases hf
  · cases hf

theorem c4main (d : Nat) (hd : 1 ≤ d) :
    find_adrp_add_ref (c4code d) c4decode 16384 c4target =
      if d ≤ 8 then some 16384 else none := by
  unfold find_adrp_add_ref
  have htp : ((c4target / 4096 * 4096 : Nat) : Int) = 131072 := by decide
  have hto : ((c4target % 4096 : Nat) : Int) = 291 := by decide
  rw [htp, hto]
  have hlen : (c4code d).length = 4 * (d + 2) := by
    rw [show c4code d = wordsToBytes ([1] ++ List.replicate (d - 1) 3 ++ [2, 3]) from rfl,
      wordsToBytes_length]
    simp
    omega
  have hcount : range4Count 0 ((c4code d).length - 4) = d + 1 := by
    rw [hlen]
    unfold range4Count
    omega
  unfold pyRange4
  rw [hcount, range4]
  rw [adrpAddGo]
  have hw0 : rd32 (c4code d) 0 = 1 := by
    rw [show (0 : Nat) = 4 * 0 from rfl,
      show c4code d = wordsToBytes ([1] ++ List.replicate (d - 1) 3 ++ [2, 3]) from rfl,
      rd32_wordsToBytes]
    rfl
  rw [hw0]
  have hd1 : c4decode 1 = some c4adrp := by decide
  rw [hd1]
  simp only [c4adrp]
  norm_num
  exact c4go d hd d 1 (by omega) (by omega) (by omega)

/-- C4 (amended): `_find_adrp_add_ref` in `cfw.py` matches an ADRP/ADD
pair materialising the target exactly when the consuming ADD occurs
within at most 8 instructions after the ADRP (a separation of 9 yields
no match), tracking one pending page-load per destination register so
the pair need not be adjacent; but `TXMJBPatcher._find_refs_to_offset`
only ever returns strictly adjacent pairs (`add_off = adrp_off + 4`),
so for the TXM/iBoot scanners the claim's "need not be adjacent" part
fails. -/
theorem adrp_add_window_and_adjacency :
    (∀ d : Nat, 1 ≤ d →
      find_adrp_add_ref (c4code d) c4decode 16384 c4target =
        if d ≤ 8 then some 16384 else none) ∧
    (find_adrp_add_ref (wordsToBytes [1, 4, 3, 2, 3]) c4decode 16384 c4target =
      some 16384) ∧
    (∀ (img : TxmImage) (target : Nat) (o1 o2 : Nat),
      (o1, o2) ∈ txm_find_refs_to_offset img target → o2 = o1 + 4) :=
  ⟨c4main, by decide,
   fun img target o1 o2 h => txm_refs_adjacent img target (o1, o2) h⟩

/-- C4 counterexample: `cnaImg` carries an ADRP at offset 0 and the
consuming ADD at offset 8 — one instruction apart, well inside the
8-instruction window — yet `TXMJBPatcher._find_refs_to_offset` finds
no reference, because it only inspects directly adjacent instruction
pairs. -/
theorem txm_refs_nonadjacent_cex :
    cnaImg.dis 0 = some { mnemonic := "adrp", operands := [Operand.r 1, Operand.i 12] } ∧
    cnaImg.dis 8 = some { mnemonic := "add", operands := [Operand.r 2, Operand.r 1, Operand.i 0] } ∧
    txm_find_refs_to_offset cnaImg 12 = [] := by
  refine ⟨by decide, by decide, by decide⟩

/-- C4 witness: the cfw window is exact at a separation of 8 (match)
versus 9 (no match), and a concrete TXM reference pair is adjacent. -/
theorem adrp_add_window_witness :
    find_adrp_add_ref (c4code 8) c4decode 16384 c4target = some 16384 ∧
    find_adrp_add_ref (c4code 9) c4decode 16384 c4target = none ∧
    (4 : Nat) = 0 + 4 := by
  refine ⟨?_, ?_, ?_⟩
  · have h := adrp_add_window_and_adjacency.1 8 (by norm_num)
    simpa using h
  · have h := adrp_add_window_and_adjacency.1 9 (by norm_num)
    simpa using h
  · exact adrp_add_window_and_adjacency.2.2 c5img 9 0 4 (by decide)

/-! ## C5: string-anchor normalization -/

theorem cstringScan_props (data : List Nat) (sec : Nat) :
    ∀ d : Nat, sec ≤ cstringScan data sec d ∧ cstringScan data sec d ≤ sec + d ∧
      ∀ i, cstringScan data sec d ≤ i → i < sec + d → rd8 data i ≠ 0 := by
  intro d
  induction d with
  | zero =>
    refine ⟨Nat.le_refl _, by simp [cstringScan], ?_⟩
    intro i h1 h2
    simp [cstringScan] at h1
    omega
  | succ d ih =>
    rw [cstringScan]
    by_cases h : rd8 data (sec + d) ≠ 0
    · rw [if_pos h]
      refine ⟨ih.1, by omega, ?_⟩
      intro i h1 h2
      by_cases hlt : i < sec + d
      · exact ih.2.2 i h1 hlt
      · have : i = sec + d := by omega
        subst this
        exact h
    · rw [if_neg h]
      refine ⟨by omega, by omega, ?_⟩
      intro i h1 h2
      omega

theorem stringRefs_inner_mem (sOff : Nat) :
    ∀ (refs : List (Nat × Nat)) (acc : List (Nat × Nat × Nat) × List Nat)
      (t : Nat × Nat × Nat),
      t ∈ (refs.foldl (fun acc2 r =>
        if acc2.2.contains r.1 then acc2
        else (acc2.1 ++ [(sOff, r.1, r.2)], acc2.2 ++ [r.1])) acc).1 →
      t ∈ acc.1 ∨ ∃ r ∈ refs, t = (sOff, r.1, r.2) := by
  intro refs
  induction refs with
  | nil => intro acc t h; exact Or.inl h
  | cons r rest ih =>
    intro acc t h
    rw [List.foldl_cons] at h
    rcases ih _ t h with h1 | ⟨r', hr', he⟩
    · by_cases hc : acc.2.contains r.1
      · rw [if_pos hc] at h1
        exact Or.inl h1
      · rw [if_neg hc] at h1
        rcases List.mem_append.mp h1 with h2 | h2
        · exact Or.inl h2
        · right
          exact ⟨r, List.mem_cons_self _ _, by simpa using h2⟩
    · exact Or.inr ⟨r', List.mem_cons_of_mem _ hr', he⟩

theorem stringRefs_outer_mem (img : TxmImage) :
    ∀ (occs : List Nat) (acc : List (Nat × Nat × Nat) × List Nat)
      (t : Nat × Nat × Nat),
      t ∈ (occs.foldl (fun acc sOff =>
        (txm_find_refs_to_offset img sOff).foldl (fun acc2 r =>
          if acc2.2.contains r.1 then acc2
          else (acc2.1 ++ [(sOff, r.1, r.2)], acc2.2 ++ [r.1])) acc) acc).1 →
      t ∈ acc.1 ∨ ∃ s ∈ occs, ∃ r ∈ txm_find_refs_to_offset img s,
        t = (s, r.1, r.2) := by
  intro occs
  induction occs with
  | nil => intro acc t h; exact Or.inl h
  | cons s rest ih =>
    intro acc t h
    rw [List.foldl_cons] at h
    rcases ih _ t h with h1 | ⟨s', hs', r', hr', he⟩
    · rcases stringRefs_inner_mem s _ acc t h1 with h2 | ⟨r, hr, he⟩
      · exact Or.inl h2
      · exact Or.inr ⟨s, List.mem_cons_self _ _, r, hr, he⟩
    · exact Or.inr ⟨s', List.mem_cons_of_mem _ hs', r', hr', he⟩

theorem txm_string_refs_sound (img : TxmImage) (needle : List Nat) :
    ∀ t ∈ txm_find_string_refs img needle,
      matchesAt img.raw needle t.1 = true ∧ t.2.2 = t.2.1 + 4 := by
  intro t ht
  unfold txm_find_string_refs at ht
  rcases stringRefs_outer_mem img (allOccurrences img.raw needle) ([], []) t ht with
    h | ⟨s, hs, r, hr, he⟩
  · cases h
  · subst he
    constructor
    · exact (List.mem_filter.mp hs).2
    · exact txm_refs_adjacent img s r hr

/-- C5 (amended): `_find_cstring_start` in `cfw.py` does normalise — it
returns a start `p` with `section_start <= p <= match_offset` and no
null byte between `p` and the match — and the cfw commands resolve
cross-references to that normalised start; but
`TXMJBPatcher._find_string_refs` resolves cross-references directly to
the raw substring-match offset, with no normalisation step at all. -/
theorem cstring_start_normalization :
    (∀ (data : List Nat) (matchOff secFoff : Nat), secFoff ≤ matchOff →
      secFoff ≤ find_cstring_start data matchOff secFoff ∧
      find_cstring_start data matchOff secFoff ≤ matchOff ∧
      ∀ i, find_cstring_start data matchOff secFoff ≤ i → i < matchOff →
        rd8 data i ≠ 0) ∧
    (∀ (img : TxmImage) (needle : List Nat) (t : Nat × Nat × Nat),
      t ∈ txm_find_string_refs img needle →
      matchesAt img.raw needle t.1 = true ∧ t.2.2 = t.2.1 + 4) := by
  constructor
  · intro data matchOff secFoff h
    have hp := cstringScan_props data secFoff (matchOff - secFoff)
    have he : secFoff + (matchOff - secFoff) = matchOff := by omega
    rw [he] at hp
    exact ⟨hp.1, hp.2.1, hp.2.2⟩
  · exact txm_string_refs_sound

/-- C5 counterexample: in `c5img` the needle `"ndl"` matches at offset
9, inside the C string `"andl"` that starts at offset 8 (where
`find_cstring_start` points, the preceding byte being non-null);
`_find_string_refs` nevertheless resolves the cross-reference to
offset 9 itself. -/
theorem txm_refs_unnormalized_cex :
    txm_find_string_refs c5img (strBytes "ndl") = [(9, 0, 4)] ∧
    find_cstring_start c5raw 9 0 = 8 ∧
    rd8 c5raw 8 ≠ 0 := by
  refine ⟨by decide, by decide, by decide⟩

/-- C5 witness: concrete normalisation bounds of `find_cstring_start`
on `c5raw`, and a concrete TXM string reference whose hit is the raw
match offset. -/
theorem cstring_start_normalization_witness :
    (0 : Nat) ≤ find_cstring_start c5raw 9 0 ∧
    find_cstring_start c5raw 9 0 ≤ 9 ∧
    matchesAt c5img.raw (strBytes "ndl") 9 = true := by
  have h1 := cstring_start_normalization.1 c5raw 9 0 (by omega)
  have h2 := cstring_start_normalization.2 c5img (strBytes "ndl") (9, 0, 4) (by decide)
  exact ⟨h1.1, h1.2.1, h2.1⟩

/-! ## C6: dylib injection idempotence -/

/-- C6: if every Mach-O slice already declares the requested dylib,
`inject_dylib` succeeds and the buffer is byte-for-byte unmodified. -/
theorem inject_dylib_idempotent :
    ∀ (data path : List Nat),
      (∀ s ∈ get_fat_slices data, check_existing_dylib data s.1 path = true) →
      inject_dylib data path = (some data, true) := by
  intro data path h
  simp only [inject_dylib]
  have hf : ∀ (l : List (Nat × Nat)) (n : Nat),
      (∀ s ∈ l, check_existing_dylib data s.1 path = true) →
      l.foldl (fun (acc : List Nat × Nat) s =>
        if check_existing_dylib acc.1 s.1 path then (acc.1, acc.2 + 1)
        else
          let (d', ok) := inject_lc_load_dylib acc.1 s.1 path
          (d', if ok then acc.2 + 1 else acc.2)) (data, n) = (data, n + l.length) := by
    intro l
    induction l with
    | nil => intro n _; simp
    | cons s rest ih =>
      intro n hl
      rw [List.foldl_cons, if_pos (hl s (List.mem_cons_self _ _))]
      rw [ih (n + 1) (fun q hq => hl q (List.mem_cons_of_mem _ hq))]
      simp only [Prod.mk.injEq, List.length_cons, true_and]
      omega
  rw [hf (get_fat_slices data) 0 h]
  simp

/-- C6 witness: `c6macho` already carries `LC_LOAD_DYLIB "/x"`, and
injecting `"/x"` returns success with the byte-identical buffer. -/
theorem inject_dylib_idempotent_witness :
    inject_dylib c6macho (strBytes "/x") = (some c6macho, true) :=
  inject_dylib_idempotent c6macho (strBytes "/x") (by decide)

/-! ## C7: load-command space reclamation order -/

/-- C7: `_inject_lc_load_dylib` reclaims space in the fixed order:
first the existing padding between the end of the load commands and the
first section's file data; only if that is insufficient, the trailing
`LC_CODE_SIGNATURE` command is stripped; and if the command would still
overflow the remaining space by more than the fixed 256-byte ceiling,
the slice injection fails with no load command written. -/
theorem inject_lc_space_order (data : List Nat) (base : Nat) (path : List Nat)
    (hm : rd32 data base = 0xFEEDFACF)
    (fs : Nat) (hfs : find_first_section_offset data base = some fs) :
    (((buildLc path).length : Int) ≤ lcAvailable data base fs →
      inject_lc_load_dylib data base path = (lcFinalize data base path, true)) ∧
    (lcAvailable data base fs < ((buildLc path).length : Int) →
      ((buildLc path).length : Int) -
          lcAvailable (strip_codesig data base).1 base fs ≤ 256 →
      inject_lc_load_dylib data base path =
        (lcFinalize (strip_codesig data base).1 base path, true)) ∧
    (lcAvailable data base fs < ((buildLc path).length : Int) →
      256 < ((buildLc path).length : Int) -
          lcAvailable (strip_codesig data base).1 base fs →
      inject_lc_load_dylib data base path = ((strip_codesig data base).1, false)) := by
  have hred : inject_lc_load_dylib data base path = inject_lc_fit data base path fs := by
    simp only [inject_lc_load_dylib]
    rw [if_neg (by simp [hm])]
    rw [hfs]
  rw [hred]
  refine ⟨?_, ?_, ?_⟩
  · intro hA
    simp only [inject_lc_fit]
    rw [if_neg (not_lt.mpr hA)]
    rw [if_neg (by
      simp only [Bool.and_eq_true, decide_eq_true_eq, not_and]
      intro hcon
      omega)]
  · intro hA hB
    simp only [inject_lc_fit]
    rw [if_pos hA]
    rw [if_neg (by
      simp only [Bool.and_eq_true, decide_eq_true_eq, not_and]
      intro hcon
      omega)]
  · intro hA hB
    simp only [inject_lc_fit]
    rw [if_pos hA]
    rw [if_pos (by
      simp only [Bool.and_eq_true, decide_eq_true_eq]
      exact ⟨by omega, hB⟩)]

set_option maxRecDepth 100000 in
/-- C7 witness: on `c7macho` a short dylib path fits into the header
padding and succeeds, while a 400-byte path overflows the ceiling and
fails leaving the buffer unchanged. -/
theorem inject_lc_space_order_witness :
    (inject_lc_load_dylib c7macho 0 (strBytes "/x")).2 = true ∧
    inject_lc_load_dylib c7macho 0 (List.replicate 400 97) = (c7macho, false) := by
  constructor
  · have h := (inject_lc_space_order c7macho 0 (strBytes "/x") (by decide) 280
      (by decide)).1 (by decide)
    rw [h]
  · have h := (inject_lc_space_order c7macho 0 (List.replicate 400 97) (by decide) 280
      (by decide)).2.2 (by decide) (by decide)
    rw [h]
    decide

/-! ## C9: encoding-failure propagation -/

set_option maxRecDepth 100000 in
/-- C9 counterexample: on the concrete TXM image `c9img` the
debugger-gate shellcode rule reaches its first `_asm_at` call with a
failing keystone facade, and the resulting `RuntimeError` escapes
`find_all` and `apply` uncaught — `apply` returns no patch count at
all, and the rules after rule 4 never run. -/
theorem txm_asm_failure_cex :
    txm_apply c9img = Except.error ("b #0x20", 8) := by rfl

set_option maxHeartbeats 1000000 in
/-- C9 (amended): an instruction-encoding failure inside
`patch_selector42_29_shellcode` is NOT confined to that rule.  Whenever
the rule reaches its first `_asm_at` call (debugger gate found, exactly
one stub site, a cave allocated) and keystone fails on the branch line,
the `RuntimeError` propagates out of `find_all` and out of `apply`
(there is no `try`/`except` anywhere in the chain), so the remaining
rules never run and the caller receives no patch count. -/
theorem txm_asm_failure_propagates (img : TxmImage) (fn stub cave : Nat)
    (h1 : find_debugger_gate_func_start img = some fn)
    (h2 : selector42Stubs img fn = [stub])
    (h3 : find_udf_cave img 6 (some stub) 0x80000 = some cave)
    (h4 : img.ks (bLine cave) stub = none) :
    txm_find_all img = Except.error (bLine cave, stub) ∧
    txm_apply img = Except.error (bLine cave, stub) := by
  have e1 : patch_selector42_29_shellcode img = selector42WithFn img fn := by
    simp only [patch_selector42_29_shellcode]
    rw [h1]
  have e2 : selector42WithFn img fn = selector42WithStub img stub := by
    unfold selector42WithFn
    rw [h2]
  have e3 : selector42WithStub img stub = selector42Emit img stub cave := by
    simp only [selector42WithStub]
    rw [h3]
  have e4 : selector42Emit img stub cave = Except.error (bLine cave, stub) := by
    simp only [selector42Emit, asm_at]
    rw [h4]
    rfl
  have hr4 : patch_selector42_29_shellcode img = Except.error (bLine cave, stub) :=
    e1.trans (e2.trans (e3.trans e4))
  have hall : txm_find_all img = Except.error (bLine cave, stub) := by
    simp only [txm_find_all]
    rw [hr4]
  have happ : txm_apply img = Except.error (bLine cave, stub) := by
    simp only [txm_apply]
    rw [hall]
  exact ⟨hall, happ⟩

set_option maxRecDepth 100000 in
/-- C9 witness: on `c9img` all four hypotheses hold concretely (gate
function at 0, single stub at 8, cave at 32, keystone failing), and the
error value propagates out of `find_all`. -/
theorem txm_asm_failure_witness :
    find_debugger_gate_func_start c9img = some 0 ∧
    selector42Stubs c9img 0 = [8] ∧
    find_udf_cave c9img 6 (some 8) 0x80000 = some 32 ∧
    c9img.ks (bLine 32) 8 = none ∧
    txm_find_all c9img = Except.error (bLine 32, 8) :=
  ⟨by decide, by decide, by decide, rfl,
   (txm_asm_failure_propagates c9img 0 8 32 (by decide) (by decide) (by decide) rfl).1⟩

/-! ## C10: no on-disk write on failing paths -/

theorem jetsamLoop_ok_false_none (data : List Nat) (decode : Nat → Option Insn)
    (ks : String → Nat → Option (List Nat)) (sections : List MachoSection)
    (textVa textSize textFoff : Nat) :
    ∀ (anchors : List (List Nat)) (r : Option (List Nat) × Bool),
      jetsamLoop data decode ks sections textVa textSize textFoff anchors =
        Except.ok r → r.2 = false → r.1 = none := by
  intro anchors
  induction anchors with
  | nil =>
    intro r hok _
    unfold jetsamLoop at hok
    injection hok with h
    rw [← h]
  | cons a rest ih =>
    intro r hok hf
    unfold jetsamLoop at hok
    cases ht : jetsamTryAnchor data decode sections textVa textSize textFoff a with
    | none =>
      simp only [ht] at hok
      exact ih r hok hf
    | some pt =>
      obtain ⟨patchOff, patchTarget⟩ := pt
      simp only [ht] at hok
      cases ha : asm_at ks (bLine patchTarget) patchOff with
      | error e =>
        simp only [ha] at hok
        exact Except.noConfusion hok
      | ok bb =>
        simp only [ha] at hok
        injection hok with h
        rw [← h] at hf
        exact Bool.noConfusion hf

/-- C10: every `cfw.py` patch command (`patch_seputil`,
`patch_launchd_cache_loader`, `patch_mobileactivationd`,
`patch_launchd_jetsam`) and `inject_dylib` overwrites the on-disk input
file only after all required in-memory patching succeeded: on every
failing path the function returns `False` together with no file write
(the written-file component of the result is `none`), so the file's
on-disk bytes are left unchanged. -/
theorem failing_paths_never_write :
    (∀ data : List Nat, (patch_seputil data).2 = false → (patch_seputil data).1 = none) ∧
    (∀ (data : List Nat) (decode : Nat → Option Insn) (r : Option (List Nat) × Bool),
      patch_launchd_cache_loader data decode = Except.ok r → r.2 = false → r.1 = none) ∧
    (∀ (data : List Nat) (r : Option (List Nat) × Bool),
      patch_mobileactivationd data = Except.ok r → r.2 = false → r.1 = none) ∧
    (∀ (data : List Nat) (decode : Nat → Option Insn)
      (ks : String → Nat → Option (List Nat)) (r : Option (List Nat) × Bool),
      patch_launchd_jetsam data decode ks = Except.ok r → r.2 = false → r.1 = none) ∧
    (∀ (data path : List Nat),
      (inject_dylib data path).2 = false → (inject_dylib data path).1 = none) := by
  refine ⟨?_, ?_, ?_, ?_, ?_⟩
  · intro data h
    simp only [patch_seputil] at h ⊢
    cases hf : listFind data (strBytes "/%s.gl" ++ [0]) with
    | none => rfl
    | some off =>
      simp only [hf] at h
      exact Bool.noConfusion h
  · intro data decode r hok hf
    unfold patch_launchd_cache_loader at hok
    cases hp : parse_macho_sections data with
    | none => simp only [hp] at hok; exact Except.noConfusion hok
    | some sections =>
      simp only [hp] at hok
      cases hl : lookupSection sections (strBytes "__TEXT") (strBytes "__text") with
      | none =>
        simp only [hl] at hok
        injection hok with h
        rw [← h]
      | some ts =>
        simp only [hl] at hok
        cases hc : cacheLoaderLoop data decode sections ts.addr ts.size ts.foff
            cacheLoaderAnchors with
        | none =>
          simp only [hc] at hok
          injection hok with h
          rw [← h]
        | some d =>
          simp only [hc] at hok
          injection hok with h
          rw [← h] at hf
          cases hf
  · intro data r hok hf
    simp only [patch_mobileactivationd] at hok
    cases hs : (find_symbol_va data (strBytes "should_hactivate")).bind (va_to_foff data) with
    | some f =>
      simp only [hs] at hok
      split at hok
      · injection hok with h
        rw [← h]
      · injection hok with h
        rw [← h] at hf
        cases hf
    | none =>
      cases hm : find_via_objc_metadata data with
      | error e =>
        simp only [hs, hm] at hok
        exact Except.noConfusion hok
      | ok io =>
        cases io with
        | none =>
          simp only [hs, hm] at hok
          injection hok with h
          rw [← h]
        | some imp =>
          simp only [hs, hm] at hok
          split at hok
          · injection hok with h
            rw [← h]
          · injection hok with h
            rw [← h] at hf
            cases hf
  · intro data decode ks r hok hf
    unfold patch_launchd_jetsam at hok
    cases hp : parse_macho_sections data with
    | none => simp only [hp] at hok; exact Except.noConfusion hok
    | some sections =>
      simp only [hp] at hok
      cases hl : lookupSection sections (strBytes "__TEXT") (strBytes "__text") with
      | none =>
        simp only [hl] at hok
        injection hok with h
        rw [← h]
      | some ts =>
        simp only [hl] at hok
        exact jetsamLoop_ok_false_none data decode ks sections ts.addr ts.size ts.foff
          jetsamAnchors r hok hf
  · intro data path h
    simp only [inject_dylib] at h ⊢
    split at h
    next hc => simp at h
    next hc =>
      split
      next hc2 => exact absurd hc2 hc
      next => rfl

/-- C10 witness: concrete failing runs of all five commands — an empty
`seputil` image, the bare Mach-O header `hdr32` for the launchd and
mobileactivationd commands, and a non-Mach-O four-byte blob for
`inject_dylib` — each return `False` and write nothing. -/
theorem failing_paths_never_write_witness :
    (patch_seputil []).2 = false ∧ (patch_seputil []).1 = none ∧
    patch_launchd_cache_loader hdr32 noDecode = Except.ok (none, false) ∧
    ((none : Option (List Nat)), false).1 = none ∧
    patch_mobileactivationd hdr32 = Except.ok (none, false) ∧
    patch_launchd_jetsam hdr32 noDecode noKs = Except.ok (none, false) ∧
    (inject_dylib [0, 0, 0, 0] [47]).2 = false ∧
    (inject_dylib [0, 0, 0, 0] [47]).1 = none :=
  ⟨by decide, failing_paths_never_write.1 [] (by decide),
   rfl,
   failing_paths_never_write.2.1 hdr32 noDecode (none, false) rfl rfl,
   rfl, rfl,
   by decide, failing_paths_never_write.2.2.2.2 [0, 0, 0, 0] [47] (by decide)⟩
